import Mathlib

/-!
Verification of the umzugshilfe-job-auto-applier core against its
specification.  The subject parser `parseJobDetailsFromSubject`
(src/src/lib/email-watcher-smtp-new.js, lines 263-338) is embedded as a
set of executable scanners over `List Char`, one per regular expression
used by the source, with JS leftmost-match and greedy/lazy backtracking
semantics made explicit.  The queue (src/app.js `handleNewJobs`), the
deduplication set (`markJobAsProcessed`), the mark-as-read discipline of
`checkForNewEmails` (both watcher variants), the notification senders and
the automator matching (`applyToJobByDetails`,
src/src/lib/automator-simple-new.js) are embedded as small pure models.
-/

namespace Umzug

/-! ### Character classes

Each class mirrors a character class of the JS regexes.  They are written
over `Char.toNat` so that facts such as "a digit is a word character" are
arithmetic. -/

/-- JS `\s` for the characters this mailbox can produce: space, tab, LF,
CR, VT, FF and NBSP (code 160). -/
def isWsJs (c : Char) : Bool :=
  c.toNat == 32 || c.toNat == 9 || c.toNat == 10 || c.toNat == 13 ||
  c.toNat == 11 || c.toNat == 12 || c.toNat == 160

/-- JS `\w` (word character for `\b`): `[A-Za-z0-9_]`. -/
def isWordCh (c : Char) : Bool :=
  (65 ≤ c.toNat && c.toNat ≤ 90) || (97 ≤ c.toNat && c.toNat ≤ 122) ||
  (48 ≤ c.toNat && c.toNat ≤ 57) || c.toNat == 95

/-- JS `\d`: `[0-9]`. -/
def isDigitCh (c : Char) : Bool :=
  48 ≤ c.toNat && c.toNat ≤ 57

/-- Case folding used by the `/i` regex flag, for the letters appearing in
the patterns of the source (ASCII plus the German umlauts). -/
def lowCh (c : Char) : Char :=
  if 65 ≤ c.toNat && c.toNat ≤ 90 then Char.ofNat (c.toNat + 32)
  else if c.toNat == 196 then 'ä'
  else if c.toNat == 214 then 'ö'
  else if c.toNat == 220 then 'ü'
  else c

/-- Unicode letter class `\p{L}`, modelled for the Latin range this German
web site uses: ASCII letters and the Latin-1/Latin-Extended letters
(0xC0-0x24F without the two operators 0xD7 and 0xF7). -/
def isUniLetter (c : Char) : Bool :=
  (65 ≤ c.toNat && c.toNat ≤ 90) || (97 ≤ c.toNat && c.toNat ≤ 122) ||
  (192 ≤ c.toNat && c.toNat ≤ 591 && c.toNat ≠ 215 && c.toNat ≠ 247)

/-- The zip-and-city capture class of the source regex:
`[\p{L}\-.'()\/\s]`. -/
def isCityCh (c : Char) : Bool :=
  isUniLetter c || c == '-' || c == '.' || c == '\'' || c == '(' ||
  c == ')' || c == '/' || isWsJs c

/-! ### Whitespace normalization

The source starts with `subject.replace(/\s+/g, " ").trim()`. -/

/-- One pass of `replace(/\s+/g, " ")`: every run of whitespace becomes a
single space.  `prevWs` records whether the previous character was part of
a whitespace run. -/
def collapseGo (prevWs : Bool) : List Char → List Char
  | [] => []
  | c :: cs =>
    if isWsJs c then
      if prevWs then collapseGo true cs else ' ' :: collapseGo true cs
    else c :: collapseGo false cs

/-- JS `String.prototype.trim` on both ends. -/
def trimWs (l : List Char) : List Char :=
  ((l.dropWhile isWsJs).reverse.dropWhile isWsJs).reverse

/-- `subject.replace(/\s+/g, " ").trim()`. -/
def normalizeL (l : List Char) : List Char :=
  trimWs (collapseGo false l)

/-! ### Substring search (for the non-job keyword filter) -/

/-- Whether `p` is an initial segment of `l`. -/
def isStartOf : List Char → List Char → Bool
  | [], _ => true
  | _ :: _, [] => false
  | p :: ps, c :: cs => p == c && isStartOf ps cs

/-- Whether `p` occurs as a contiguous substring of `l`. -/
def hasSub : List Char → List Char → Bool
  | [], p => isStartOf p []
  | c :: cs, p => isStartOf p (c :: cs) || hasSub cs p

/-- Lower-case a string with `lowCh` (the `/i` flag). -/
def lowerL (l : List Char) : List Char := l.map lowCh

/-- Keywords of `/registrierung|registration|verify|best[äa]tig/i`. -/
def nonJobKeywords : List (List Char) :=
  ["registrierung".data, "registration".data, "verify".data,
   "bestätig".data, "bestatig".data]

/-- The early rejection `if (/registrierung|registration|verify|best[äa]tig/i.test(s)) return null`. -/
def nonJobCheck (s : List Char) : Bool :=
  nonJobKeywords.any (fun k => hasSub (lowerL s) k)

/-! ### The `morgen` noise removal

`s = s.replace(/\bmorgen,?\s*/i, "")` removes the first match only. -/

/-- Previous-character word status, for `\b` at a match start (`none`
means start of string). -/
def prevIsWord (p : Option Char) : Bool :=
  match p with
  | none => false
  | some c => isWordCh c

/-- Attempt `\bmorgen,?\s*` at the head of `l`; returns the suffix after
the match. -/
def tryMorgen (prev : Option Char) (l : List Char) : Option (List Char) :=
  if prevIsWord prev then none
  else
    match l with
    | c1 :: c2 :: c3 :: c4 :: c5 :: c6 :: rest =>
      if lowCh c1 == 'm' && lowCh c2 == 'o' && lowCh c3 == 'r' &&
         lowCh c4 == 'g' && lowCh c5 == 'e' && lowCh c6 == 'n' then
        some (match rest with
          | ',' :: r2 => r2.dropWhile isWsJs
          | r2 => r2.dropWhile isWsJs)
      else none
    | _ => none

/-- Leftmost-match scan for the `morgen` removal; `acc` is the reversed
prefix already scanned. -/
def goMorgen (prev : Option Char) (acc : List Char) : List Char → List Char
  | [] => acc.reverse
  | c :: cs =>
    match tryMorgen prev (c :: cs) with
    | some rest => acc.reverse ++ rest
    | none => goMorgen (some c) (c :: acc) cs

/-- `s.replace(/\bmorgen,?\s*/i, "")`. -/
def removeMorgen (s : List Char) : List Char := goMorgen none [] s

/-! ### Small regex building blocks -/

/-- Expect the literal character `sep` at the head. -/
def expectCh (sep : Char) (l : List Char) : Option (List Char) :=
  match l with
  | c :: r => if c == sep then some r else none
  | [] => none

/-- Greedy `\d{1,2}` followed by a continuation `k`, with the JS
backtracking order: two digits first, then one. -/
def try12Then {α : Type} (k : List Char → List Char → Option α)
    (l : List Char) : Option α :=
  match l with
  | a :: rest =>
    if isDigitCh a then
      match rest with
      | b :: rest2 =>
        if isDigitCh b then
          match k [a, b] rest2 with
          | some r => some r
          | none => k [a] rest
        else k [a] rest
      | [] => k [a] []
    else none
  | [] => none

/-- Exactly `\d{2}`. -/
def try2Digits (l : List Char) : Option (List Char × List Char) :=
  match l with
  | a :: b :: rest =>
    if isDigitCh a && isDigitCh b then some ([a, b], rest) else none
  | _ => none

/-- Exactly `\d{4}`. -/
def try4Digits (l : List Char) : Option (List Char × List Char) :=
  match l with
  | a :: b :: c :: d :: rest =>
    if isDigitCh a && isDigitCh b && isDigitCh c && isDigitCh d then
      some ([a, b, c, d], rest)
    else none
  | _ => none

/-- Exactly `\d{5}`. -/
def try5Digits (l : List Char) : Option (List Char × List Char) :=
  match l with
  | a :: b :: c :: d :: e :: rest =>
    if isDigitCh a && isDigitCh b && isDigitCh c && isDigitCh d &&
       isDigitCh e then
      some ([a, b, c, d, e], rest)
    else none
  | _ => none

/-- A `\b` whose left side was a word character: the next character must
be a non-word character, or the string ends. -/
def endsWordBoundary (l : List Char) : Bool :=
  match l with
  | [] => true
  | c :: _ => !isWordCh c

/-- Combined `(?!\.)\b` after a digit: end of string, or a non-word
character that is not a dot. -/
def notDotBoundary (l : List Char) : Bool :=
  match l with
  | [] => true
  | c :: _ => !isWordCh c && !(c == '.')

/-- `\s+`: one or more whitespace characters, consumed greedily. -/
def wsPlus (l : List Char) : Option (List Char) :=
  match l with
  | c :: cs => if isWsJs c then some (cs.dropWhile isWsJs) else none
  | [] => none

/-- `\b(?:um|ab)` case-insensitively; returns the suffix after the two
letters. -/
def takeUmAb (prev : Option Char) (l : List Char) : Option (List Char) :=
  if prevIsWord prev then none
  else
    match l with
    | c1 :: c2 :: rest =>
      if (lowCh c1 == 'u' && lowCh c2 == 'm') ||
         (lowCh c1 == 'a' && lowCh c2 == 'b') then some rest
      else none
    | _ => none

/-! ### The date regexes -/

/-- Attempt `\b(\d{1,2})\.(\d{1,2})\.(\d{4})\b` at the head of `l`. -/
def tryDateY (prev : Option Char) (l : List Char) :
    Option (List Char × List Char × List Char) :=
  if prevIsWord prev then none
  else
    try12Then (fun dd r =>
      match expectCh '.' r with
      | none => none
      | some r1 =>
        try12Then (fun mm r2 =>
          match expectCh '.' r2 with
          | none => none
          | some r3 =>
            match try4Digits r3 with
            | none => none
            | some (yy, r4) =>
              if endsWordBoundary r4 then some (dd, mm, yy) else none) r1) l

/-- Attempt `\b(\d{1,2})\.(\d{1,2})\.?\b` at the head of `l`.  The tail
`\.?\b` succeeds exactly when a word boundary follows the month digits
(a following dot is itself a non-word character). -/
def tryDateNoY (prev : Option Char) (l : List Char) :
    Option (List Char × List Char) :=
  if prevIsWord prev then none
  else
    try12Then (fun dd r =>
      match expectCh '.' r with
      | none => none
      | some r1 =>
        try12Then (fun mm r2 =>
          if endsWordBoundary r2 then some (dd, mm) else none) r1) l

/-! ### The time regexes -/

/-- Tail `(\d{1,2}):(\d{2})\b` shared by the first and the fourth time
pattern. -/
def tryHMcolon (l : List Char) : Option (List Char × List Char) :=
  try12Then (fun hh r =>
    match expectCh ':' r with
    | none => none
    | some r1 =>
      match try2Digits r1 with
      | none => none
      | some (mm, r2) =>
        if endsWordBoundary r2 then some (hh, mm) else none) l

/-- Tail `(\d{1,2})\.(\d{2})` with `(?!\.)` and `\b`, shared by the second
and the fifth time pattern. -/
def tryHMdot (l : List Char) : Option (List Char × List Char) :=
  try12Then (fun hh r =>
    match expectCh '.' r with
    | none => none
    | some r1 =>
      match try2Digits r1 with
      | none => none
      | some (mm, r2) =>
        if notDotBoundary r2 then some (hh, mm) else none) l

/-- Attempt `\b(?:um|ab)\s+(\d{1,2}):(\d{2})\b` (case-insensitive). -/
def tryTime1 (prev : Option Char) (l : List Char) :
    Option (List Char × List Char) :=
  match takeUmAb prev l with
  | none => none
  | some l1 =>
    match wsPlus l1 with
    | none => none
    | some l2 => tryHMcolon l2

/-- Attempt `\b(?:um|ab)\s+(\d{1,2})\.(\d{2})(?!\.)\b` (case-insensitive). -/
def tryTime2 (prev : Option Char) (l : List Char) :
    Option (List Char × List Char) :=
  match takeUmAb prev l with
  | none => none
  | some l1 =>
    match wsPlus l1 with
    | none => none
    | some l2 => tryHMdot l2

/-- Attempt `\b(?:um|ab)\s+(\d{1,2})(?:\s*Uhr)?\b` (case-insensitive):
the optional `\s*Uhr` group is tried first (greedy), and on failure of its
trailing `\b` the group is dropped. -/
def tryTime3 (prev : Option Char) (l : List Char) : Option (List Char) :=
  match takeUmAb prev l with
  | none => none
  | some l1 =>
    match wsPlus l1 with
    | none => none
    | some l2 =>
      try12Then (fun hh r =>
        let afterUhr : Option (List Char) :=
          match r.dropWhile isWsJs with
          | c1 :: c2 :: c3 :: rest =>
            if lowCh c1 == 'u' && lowCh c2 == 'h' && lowCh c3 == 'r' then
              some rest
            else none
          | _ => none
        match afterUhr with
        | some rest =>
          if endsWordBoundary rest then some hh
          else if endsWordBoundary r then some hh else none
        | none => if endsWordBoundary r then some hh else none) l2

/-- Attempt `(^|[^0-9.])(\d{1,2}):(\d{2})\b`: instead of `\b`, the
previous character must be absent or outside `[0-9.]`. -/
def tryTimeF1 (prev : Option Char) (l : List Char) :
    Option (List Char × List Char) :=
  match prev with
  | none => tryHMcolon l
  | some p => if isDigitCh p || p == '.' then none else tryHMcolon l

/-- Attempt `(^|[^0-9.])(\d{1,2})\.(\d{2})\b(?!\.)`. -/
def tryTimeF2 (prev : Option Char) (l : List Char) :
    Option (List Char × List Char) :=
  match prev with
  | none => tryHMdot l
  | some p => if isDigitCh p || p == '.' then none else tryHMdot l

/-! ### The zip-and-city regex
`\b(\d{5})\s+([\p{L}\-.'()\/\s]+?)(?:\s+gesucht\b|$)` with the `u` flag. -/

/-- The continuation `(?:\s+gesucht\b|$)` of the lazy city capture. -/
def locCont (l : List Char) : Bool :=
  match l with
  | [] => true
  | _ :: _ =>
    match wsPlus l with
    | none => false
    | some r => isStartOf "gesucht".data r && endsWordBoundary (r.drop 7)

/-- The lazy capture `[\p{L}\-.'()\/\s]+?`: `acc` holds the reversed
characters captured so far (at least one); the continuation is tried
before every extension. -/
def locCapture (acc : List Char) (l : List Char) : Option (List Char) :=
  if locCont l then some acc.reverse
  else
    match l with
    | c :: cs => if isCityCh c then locCapture (c :: acc) cs else none
    | [] => none

/-- Attempt the whole zip-and-city pattern at the head of `l`. -/
def tryLoc (prev : Option Char) (l : List Char) :
    Option (List Char × List Char) :=
  if prevIsWord prev then none
  else
    match try5Digits l with
    | none => none
    | some (zz, r) =>
      match wsPlus r with
      | none => none
      | some r1 =>
        match r1 with
        | c :: cs =>
          if isCityCh c then
            match locCapture [c] cs with
            | some city => some (zz, city)
            | none => none
          else none
        | [] => none

/-! ### Leftmost-match scanning -/

/-- Leftmost match: try at every position from the left, carrying the
previous character for the `\b` checks. -/
def scanP {α : Type} (tryf : Option Char → List Char → Option α) :
    Option Char → List Char → Option α
  | _, [] => none
  | prev, c :: cs =>
    match tryf prev (c :: cs) with
    | some r => some r
    | none => scanP tryf (some c) cs

/-! ### The parser -/

/-- The structured job record `{date, time, zip, city}`. -/
structure JobRec where
  date : List Char
  time : List Char
  zip : List Char
  city : List Char
deriving DecidableEq, Repr

/-- `padStart(2, "0")`. -/
def z2L (l : List Char) : List Char :=
  match l with
  | [] => ['0', '0']
  | [a] => ['0', a]
  | l => l

/-- `String(year)` for the year synthesized from the clock. -/
def yearChars (y : Nat) : List Char := (Nat.repr y).data

/-- The time extraction: the five patterns in source order; the third
pattern defaults the minutes to `"00"`. -/
def timeSearch (s : List Char) : Option (List Char × List Char) :=
  match scanP tryTime1 none s with
  | some r => some r
  | none =>
    match scanP tryTime2 none s with
    | some r => some r
    | none =>
      match scanP tryTime3 none s with
      | some h => some (h, ['0', '0'])
      | none =>
        match scanP tryTimeF1 none s with
        | some r => some r
        | none => scanP tryTimeF2 none s

/-- The stages after the date string is fixed: time, then zip and city;
the city is normalized by `replace(/\s+/g, " ").trim()`. -/
def parseRest (t : List Char) (dateStr : List Char) : Option JobRec :=
  match timeSearch t with
  | none => none
  | some (hh, mm) =>
    match scanP tryLoc none t with
    | none => none
    | some (zz, city) =>
      some ⟨dateStr, z2L hh ++ ':' :: mm, zz, normalizeL city⟩

/-- The subject parser of src/src/lib/email-watcher-smtp-new.js lines
263-338.  `internalYear` is the year of the IMAP INTERNALDATE argument
(accepted but never read by the source); `nowYear` is the year of the
wall clock `new Date()`, used when the date token has no year. -/
def parseJobDetailsFromSubject (subj : List Char)
    (internalYear nowYear : Nat) : Option JobRec :=
  if subj.isEmpty then none
  else
    let t0 := normalizeL subj
    if nonJobCheck t0 then none
    else
      let t := removeMorgen t0
      match scanP tryDateY none t with
      | some (dd, mm, yy) =>
        parseRest t (z2L dd ++ '.' :: (z2L mm ++ '.' :: yy))
      | none =>
        match scanP tryDateNoY none t with
        | none => none
        | some (dd, mm) =>
          parseRest t (z2L dd ++ '.' :: (z2L mm ++ '.' :: yearChars nowYear))

/-- Whether the subject carries a time token, in the sense of the five
time patterns of the parser (evaluated, as the parser does, on the
normalized subject after the `morgen` removal). -/
def hasTimeToken (subj : List Char) : Bool :=
  (timeSearch (removeMorgen (normalizeL subj))).isSome

/-- Whether the subject carries a five-digit zip token followed by
city text, in the sense of the zip-and-city pattern of the parser. -/
def hasLocToken (subj : List Char) : Bool :=
  (scanP tryLoc none (removeMorgen (normalizeL subj))).isSome

/-- Whether the date token of the subject carries an explicit four-digit
year. -/
def hasExplicitYearAt (subj : List Char) : Bool :=
  (scanP tryDateY none (removeMorgen (normalizeL subj))).isSome

/-! ### The single-flight queue (src/app.js `handleNewJobs`, lines 117-171)

`handleNewJobs` checks `this.isProcessing` and, when a batch is in
flight, defers the new batch with `setTimeout` and returns; otherwise it
sets the flag, processes, and clears the flag in `finally` (on completion
and on throw alike).  The check and the set are synchronous, so in the
single-threaded event loop they form one atomic step; `Option Nat` for
the processing slot makes "at most one in-flight batch" structural. -/

/-- An event of the service loop: a call of `handleNewJobs` with a batch
(direct or from a `setTimeout` retry), or the terminal step of the
in-flight batch (the `finally` block, reached on completion and on
throw). -/
inductive SvcEvent where
  | call (batch : Nat)
  | finish
deriving DecidableEq, Repr

/-- The observable service state: the in-flight batch, if any, and the
batches deferred by the `setTimeout` queue. -/
structure SvcState where
  processing : Option Nat
  queued : List Nat
deriving DecidableEq, Repr

/-- One step of `handleNewJobs` or of its `finally` block. -/
def svcStep (s : SvcState) : SvcEvent → SvcState
  | .call b =>
    match s.processing with
    | some _ => { s with queued := s.queued ++ [b] }
    | none => { processing := some b, queued := s.queued }
  | .finish => { s with processing := none }

/-- A run of the service from the initial idle state. -/
def runSvc (es : List SvcEvent) : SvcState :=
  es.foldl svcStep { processing := none, queued := [] }

/-! ### The deduplication set (`markJobAsProcessed`,
src/src/lib/email-watcher-smtp-new.js lines 380-387)

A JS `Set` iterates in insertion order and ignores duplicate adds, so it
is modelled as a duplicate-free list in insertion order;
`Array.from(set).slice(-500)` keeps the last 500 elements. -/

/-- `Set.prototype.add`: append unless present. -/
def addSet (l : List String) (k : String) : List String :=
  if k ∈ l then l else l ++ [k]

/-- `markJobAsProcessed`: add, then if the size exceeds 1000 rebuild the
set from the last 500 entries in insertion order. -/
def markJobAsProcessed (l : List String) (k : String) : List String :=
  let a := addSet l k
  if 1000 < a.length then a.drop (a.length - 500) else a

/-! ### The mark-as-read discipline of `checkForNewEmails`

Two watcher variants exist.  `src/unnamed/part_002` (lines 74-164)
computes a `shouldMarkAsRead` flag per message: a parsed job is marked
read when it was already deduplicated, or the handler result has a
non-empty `results.successful`, or (on a reported failure) at least 3
prior retries, or (on a thrown error) at least 2 prior retries; a parse
failure is marked read after at least 2 prior retries.
`src/src/lib/email-watcher-smtp-new.js` (lines 126-149) instead marks a
parsed message read whenever the handler returns without throwing, never
consulting the handler result, the dedup set or the retry counter.
The handler outcome is `Except Unit (successful, failed)`, `.error`
standing for a thrown error. -/

/-- Handler outcome type: `.ok (successful, failed)` or a thrown error. -/
abbrev HandlerRes := Except Unit (List String × List String)

/-- Whether the handler reported success:
`result && result.results && result.results.successful.length > 0`. -/
def reportsSuccess : HandlerRes → Bool
  | .ok (succ, _) => !succ.isEmpty
  | .error _ => false

/-- Whether the per-message retry budget of the part_002 variant is
exhausted for the given outcome (3 prior retries for a reported failure,
2 for a thrown error). -/
def retryBudgetSpent : HandlerRes → Nat → Bool
  | .ok _, n => decide (3 ≤ n)
  | .error _, n => decide (2 ≤ n)

/-- The `shouldMarkAsRead` flag computed by the part_002
`checkForNewEmails` for one message. -/
def shouldMarkRead (details : Option JobRec) (already : Bool)
    (res : HandlerRes) (retry : Nat) : Bool :=
  match details with
  | none => decide (2 ≤ retry)
  | some _ =>
    if already then true
    else
      match res with
      | .ok (succ, _) => if succ.isEmpty then decide (3 ≤ retry) else true
      | .error _ => decide (2 ≤ retry)

/-- The mark-as-read decision of the email-watcher-smtp-new.js
`checkForNewEmails` for one message: `markAsRead` runs right after
`jobHandler` returns, and is skipped only when no details parsed or the
handler threw. -/
def shouldMarkReadNew (details : Option JobRec) (res : HandlerRes) : Bool :=
  match details with
  | none => false
  | some _ =>
    match res with
    | .ok _ => true
    | .error _ => false

/-! ### The notification senders
(src/src/lib/email-watcher-smtp-new.js lines 625-685, identical in
src/src/lib/email-watcher-smtp.js lines 368-428)

`sendMail` is modelled by its outcome `mailOk`; each sender returns the
value seen by the caller together with the number of `sendMail`
attempts. -/

/-- The outcome of one `transporter.sendMail` call. -/
def attemptSend (mailOk : Bool) : Except String Unit :=
  if mailOk then .ok () else .error "send failed"

/-- `sendSuccessNotification`: returns early without a transporter, and
wraps `sendMail` in try/catch that only logs. -/
def sendSuccessNotification (hasTransporter mailOk : Bool) :
    Except String Unit × Nat :=
  if hasTransporter then
    match attemptSend mailOk with
    | .ok _ => (.ok (), 1)
    | .error _ => (.ok (), 1)
  else (.ok (), 0)

/-- `sendErrorNotification`: same shape as `sendSuccessNotification`. -/
def sendErrorNotification (hasTransporter mailOk : Bool) :
    Except String Unit × Nat :=
  if hasTransporter then
    match attemptSend mailOk with
    | .ok _ => (.ok (), 1)
    | .error _ => (.ok (), 1)
  else (.ok (), 0)

/-- `sendTestEmail`: throws without a transporter, and awaits `sendMail`
with no try/catch, so a send failure propagates to the caller. -/
def sendTestEmail (hasTransporter mailOk : Bool) :
    Except String Unit × Nat :=
  if hasTransporter then (attemptSend mailOk, 1)
  else (.error "SMTP transporter not initialized", 0)

/-! ### `processJobs` (src/src/lib/automator-simple.js lines 137-166) -/

/-- The test-id short circuit:
`jobId === "TEST123" || String(jobId).startsWith("TEST")`. -/
def isTestId (j : String) : Bool :=
  j == "TEST123" || j.data.take 4 == "TEST".data

/-- `processJobs`: the pair of result lists `(successful, failed)`
together with the list of job ids for which `applyToJob` (page
navigation, listing lookup, form submission) was actually invoked;
`applyFn` is the `applyToJob` oracle, `.error` standing for a thrown
error (caught and recorded as failed). -/
def processJobs (applyFn : String → Except String Bool) :
    List String → (List String × List String) × List String
  | [] => (([], []), [])
  | j :: rest =>
    let step : (List String × List String) × List String :=
      if isTestId j then (([j], []), [])
      else
        match applyFn j with
        | .ok true => (([j], []), [j])
        | .ok false => (([], [j]), [j])
        | .error _ => (([], [j]), [j])
    let r := processJobs applyFn rest
    ((step.1.1 ++ r.1.1, step.1.2 ++ r.1.2), step.2 ++ r.2)

/-! ### The listings matcher (`applyToJobByDetails`,
src/src/lib/automator-simple-new.js lines 248-281)

A listings page is a list of entries; an entry carries its
`data-status` attribute, whether it contains a `span.date.location`
element, and its rendered text.  Playwright `hasText` with a string does
a case-insensitive substring match over normalized text. -/

/-- One `div.entry` of the Meine Jobs page. -/
structure Entry where
  status : String
  hasLocSpan : Bool
  text : String
deriving DecidableEq, Repr

/-- Playwright `{ hasText: pat }` on an entry. -/
def entryHasText (e : Entry) (pat : List Char) : Bool :=
  hasSub (lowerL (normalizeL e.text.data)) (lowerL pat)

/-- The `div.entry[data-status="new"], div.entry[data-status="neu"]`
locator. -/
def isNewEntry (e : Entry) : Bool :=
  e.status == "new" || e.status == "neu"

/-- The needle `norm('Am ${date} um ${time} in ${zip}')` of the source
(the city is never part of the needle in this variant). -/
def detailsNeedle (rec : JobRec) : List Char :=
  normalizeL ("Am ".data ++ rec.date ++ " um ".data ++ rec.time ++
    " in ".data ++ rec.zip)

/-- The two-stage entry lookup: new/neu entries containing the needle
inside a `span.date.location`, then new/neu entries containing it
anywhere. -/
def findMatchingEntries (page : List Entry) (pat : List Char) :
    List Entry :=
  let primary := page.filter
    (fun e => isNewEntry e && e.hasLocSpan && entryHasText e pat)
  if primary.isEmpty then
    page.filter (fun e => isNewEntry e && entryHasText e pat)
  else primary

/-- `applyToJobByDetails`: locate the entry; with no match log and return
`false`; otherwise submit the accept form of the first match
(`submitOutcome` gives the result of `_submitAcceptInEntry`, `.error`
standing for a thrown error). -/
def applyToJobByDetails (page : List Entry)
    (submitOutcome : Entry → Except String Bool) (rec : JobRec) :
    Except String Bool :=
  match findMatchingEntries page (detailsNeedle rec) with
  | [] => Except.ok false
  | e :: _ => submitOutcome e

/-! ### The canonical subject template

`"N Umzugshelfer am DD.MM.YYYY ab HH:MM Uhr in ZZZZZ City gesucht"`,
with the city a sequence of letter words separated by single spaces. -/

/-- The tail of a space-separated word join: a space before each word. -/
def joinTail : List (List Char) → List Char
  | [] => []
  | w :: ws => ' ' :: (w ++ joinTail ws)

/-- Words joined by single spaces. -/
def joinWords : List (List Char) → List Char
  | [] => []
  | w :: ws => w ++ joinTail ws

/-- The canonical template subject, assembled from its components. -/
def canonSubject (n d mo y hh mi zp : List Char) (ws : List (List Char)) :
    List Char :=
  n ++ ' ' :: ("Umzugshelfer".data ++ ' ' :: ("am".data ++ ' ' ::
    (d ++ '.' :: (mo ++ '.' :: (y ++ ' ' :: ("ab".data ++ ' ' ::
    (hh ++ ':' :: (mi ++ ' ' :: ("Uhr".data ++ ' ' :: ("in".data ++ ' ' ::
    (zp ++ ' ' :: (joinWords ws ++ ' ' :: "gesucht".data))))))))))))

/-- A well-formed city word: nonempty, made of letters, and not beginning
with the lower-case letters `gesucht` (which would end the lazy capture
of the zip-and-city regex early). -/
def goodCityWord (w : List Char) : Prop :=
  w ≠ [] ∧ (∀ c ∈ w, isUniLetter c = true) ∧
  isStartOf "gesucht".data w = false

instance (w : List Char) : Decidable (goodCityWord w) := by
  unfold goodCityWord; infer_instance

/-! ## Theorems -/

/-! ### Character class facts -/

theorem digit_ne {c : Char} (hd : isDigitCh c = true) (d : Char)
    (h : isDigitCh d = false) : c ≠ d := by
  intro e; rw [e, h] at hd; cases hd

theorem digit_beq {c : Char} (hd : isDigitCh c = true) (d : Char)
    (h : isDigitCh d = false) : (c == d) = false :=
  beq_eq_false_iff_ne.mpr (digit_ne hd d h)

theorem beq_digit {c : Char} (hd : isDigitCh c = true) (d : Char)
    (h : isDigitCh d = false) : (d == c) = false :=
  beq_eq_false_iff_ne.mpr (Ne.symm (digit_ne hd d h))

theorem digit_isWord {c : Char} (hd : isDigitCh c = true) :
    isWordCh c = true := by
  simp only [isDigitCh, Bool.and_eq_true, decide_eq_true_eq] at hd
  simp only [isWordCh, Bool.or_eq_true, Bool.and_eq_true, decide_eq_true_eq,
    beq_iff_eq]
  omega

theorem digit_not_ws {c : Char} (hd : isDigitCh c = true) :
    isWsJs c = false := by
  simp only [isDigitCh, Bool.and_eq_true, decide_eq_true_eq] at hd
  simp only [isWsJs, Bool.or_eq_false_iff, beq_eq_false_iff_ne, ne_eq]
  omega

theorem digit_lowCh {c : Char} (hd : isDigitCh c = true) : lowCh c = c := by
  simp only [isDigitCh, Bool.and_eq_true, decide_eq_true_eq] at hd
  unfold lowCh
  rw [if_neg, if_neg, if_neg, if_neg]
  · simp only [beq_iff_eq]; omega
  · simp only [beq_iff_eq]; omega
  · simp only [beq_iff_eq]; omega
  · simp only [Bool.and_eq_true, decide_eq_true_eq, not_and]; omega

theorem digit_not_letter {c : Char} (hd : isDigitCh c = true) :
    isUniLetter c = false := by
  simp only [isDigitCh, Bool.and_eq_true, decide_eq_true_eq] at hd
  simp only [isUniLetter, Bool.or_eq_false_iff, Bool.and_eq_false_iff]
  constructor
  · constructor <;> [left; left] <;> simp only [decide_eq_false_iff_not] <;>
      omega
  · left; simp only [decide_eq_false_iff_not]; omega

theorem digit_not_city {c : Char} (hd : isDigitCh c = true) :
    isCityCh c = false := by
  simp only [isCityCh, Bool.or_eq_false_iff]
  refine ⟨⟨⟨⟨⟨⟨⟨digit_not_letter hd, ?_⟩, ?_⟩, ?_⟩, ?_⟩, ?_⟩, ?_⟩,
    digit_not_ws hd⟩ <;> exact digit_beq hd _ (by decide)

theorem letter_not_ws {c : Char} (hl : isUniLetter c = true) :
    isWsJs c = false := by
  simp only [isUniLetter, Bool.or_eq_true, Bool.and_eq_true,
    decide_eq_true_eq, ne_eq] at hl
  simp only [isWsJs, Bool.or_eq_false_iff, beq_eq_false_iff_ne, ne_eq]
  omega

theorem letter_isCity {c : Char} (hl : isUniLetter c = true) :
    isCityCh c = true := by
  simp [isCityCh, hl]

theorem letter_ne {c : Char} (hl : isUniLetter c = true) (d : Char)
    (h : isUniLetter d = false) : c ≠ d := by
  intro e; rw [e, h] at hl; cases hl

/-! ### Scan step lemmas -/

theorem scanP_cons {α : Type} (tryf : Option Char → List Char → Option α)
    (p : Option Char) {c : Char} {cs : List Char}
    (h : tryf p (c :: cs) = none) :
    scanP tryf p (c :: cs) = scanP tryf (some c) cs := by
  simp [scanP, h]

theorem scanP_cons_some {α : Type}
    (tryf : Option Char → List Char → Option α) (p : Option Char)
    {c : Char} {cs : List Char} {v : α} (h : tryf p (c :: cs) = some v) :
    scanP tryf p (c :: cs) = some v := by
  simp [scanP, h]

theorem tryDateY_prevWord {p : Option Char} (h : prevIsWord p = true)
    (l : List Char) : tryDateY p l = none := by
  simp [tryDateY, h]

theorem tryDateNoY_prevWord {p : Option Char} (h : prevIsWord p = true)
    (l : List Char) : tryDateNoY p l = none := by
  simp [tryDateNoY, h]

theorem tryLoc_prevWord {p : Option Char} (h : prevIsWord p = true)
    (l : List Char) : tryLoc p l = none := by
  simp [tryLoc, h]

theorem takeUmAb_prevWord {p : Option Char} (h : prevIsWord p = true)
    (l : List Char) : takeUmAb p l = none := by
  simp [takeUmAb, h]

theorem tryTime1_prevWord {p : Option Char} (h : prevIsWord p = true)
    (l : List Char) : tryTime1 p l = none := by
  simp [tryTime1, takeUmAb_prevWord h]

/-- A digit at the head can never start `\b(?:um|ab)...`. -/
theorem tryTime1_digit_head {c : Char} (hc : isDigitCh c = true)
    (p : Option Char) (l : List Char) : tryTime1 p (c :: l) = none := by
  unfold tryTime1 takeUmAb
  by_cases hp : prevIsWord p = true
  · simp [hp]
  · rw [if_neg hp]
    cases l with
    | nil => rfl
    | cons b bs =>
      simp [digit_lowCh hc, digit_beq hc 'u' (by decide),
        digit_beq hc 'a' (by decide)]

/-- A dot or another non-letter concrete head fails `\b(?:um|ab)` too. -/
theorem tryTime1_head_fails {c : Char} (hne : (lowCh c == 'u') = false)
    (hne2 : (lowCh c == 'a') = false) (p : Option Char) (l : List Char) :
    tryTime1 p (c :: l) = none := by
  unfold tryTime1 takeUmAb
  by_cases hp : prevIsWord p = true
  · simp [hp]
  · rw [if_neg hp]
    cases l with
    | nil => rfl
    | cons b bs => simp [hne, hne2]

/-- A non-digit head fails `\b(\d{1,2})...`. -/
theorem tryDateY_nondigit_head {c : Char} (hc : isDigitCh c = false)
    (p : Option Char) (l : List Char) : tryDateY p (c :: l) = none := by
  unfold tryDateY
  by_cases hp : prevIsWord p = true
  · simp [hp]
  · rw [if_neg hp]; simp [try12Then, hc]

/-- A non-digit head fails the zip pattern `\b(\d{5})...`. -/
theorem tryLoc_nondigit_head {c : Char} (hc : isDigitCh c = false)
    (p : Option Char) (l : List Char) : tryLoc p (c :: l) = none := by
  unfold tryLoc
  by_cases hp : prevIsWord p = true
  · simp [hp]
  · rw [if_neg hp]
    rcases l with _ | ⟨b, _ | ⟨b2, _ | ⟨b3, _ | ⟨b4, tl⟩⟩⟩⟩ <;>
      simp [try5Digits, hc]

/-! ### Whitespace normalization lemmas -/

theorem collapseGo_cons_nonws {c : Char} (h : isWsJs c = false) (b : Bool)
    (r : List Char) : collapseGo b (c :: r) = c :: collapseGo false r := by
  simp [collapseGo, h]

theorem collapseGo_space (r : List Char) :
    collapseGo false (' ' :: r) = ' ' :: collapseGo true r := by
  simp [collapseGo, isWsJs]

theorem collapseGo_false_append {a : List Char}
    (h : ∀ c ∈ a, isWsJs c = false) (r : List Char) :
    collapseGo false (a ++ r) = a ++ collapseGo false r := by
  induction a with
  | nil => rfl
  | cons c a' ih =>
    rw [List.cons_append, collapseGo_cons_nonws (h c (by simp)),
      ih (fun c hc => h c (by simp [hc]))]
    rfl

theorem collapseGo_append_nonws {a : List Char}
    (h : ∀ c ∈ a, isWsJs c = false) (ha : a ≠ []) (b : Bool)
    (r : List Char) : collapseGo b (a ++ r) = a ++ collapseGo false r := by
  cases a with
  | nil => exact absurd rfl ha
  | cons c a' =>
    rw [List.cons_append, collapseGo_cons_nonws (h c (by simp)),
      collapseGo_false_append (fun c hc => h c (by simp [hc]))]
    rfl

theorem collapse_joinTail {ws : List (List Char)}
    (hws : ∀ w ∈ ws, goodCityWord w) :
    collapseGo false (joinTail ws) = joinTail ws := by
  induction ws with
  | nil => rfl
  | cons w ws' ih =>
    obtain ⟨hne, hlet, -⟩ := hws w (by simp)
    show collapseGo false (' ' :: (w ++ joinTail ws')) = _
    rw [collapseGo_space,
      collapseGo_append_nonws
        (fun c hc => letter_not_ws (hlet c hc)) hne,
      ih (fun v hv => hws v (by simp [hv]))]
    rfl

theorem collapse_joinWords {ws : List (List Char)}
    (hws : ∀ w ∈ ws, goodCityWord w) :
    collapseGo false (joinWords ws) = joinWords ws := by
  cases ws with
  | nil => rfl
  | cons w ws' =>
    obtain ⟨hne, hlet, -⟩ := hws w (by simp)
    show collapseGo false (w ++ joinTail ws') = _
    rw [collapseGo_false_append (fun c hc => letter_not_ws (hlet c hc)),
      collapse_joinTail (fun v hv => hws v (by simp [hv]))]
    rfl

theorem collapse_city {ws : List (List Char)}
    (hws : ∀ w ∈ ws, goodCityWord w) (hne : ws ≠ []) (G : List Char) :
    collapseGo true (joinWords ws ++ ' ' :: G) =
      joinWords ws ++ ' ' :: collapseGo true G := by
  induction ws with
  | nil => exact absurd rfl hne
  | cons w ws' ih =>
    obtain ⟨hwne, hlet, -⟩ := hws w (by simp)
    show collapseGo true ((w ++ joinTail ws') ++ ' ' :: G) = _
    rw [List.append_assoc,
      collapseGo_append_nonws (fun c hc => letter_not_ws (hlet c hc)) hwne]
    cases ws' with
    | nil =>
      show w ++ collapseGo false (' ' :: G) = _
      rw [collapseGo_space]
      simp [joinWords, joinTail]
    | cons v vs =>
      show w ++ collapseGo false ((' ' :: (v ++ joinTail vs)) ++ ' ' :: G) = _
      rw [List.cons_append, collapseGo_space,
        show (v ++ joinTail vs) ++ ' ' :: G = joinWords (v :: vs) ++ ' ' :: G
          from rfl,
        ih (fun u hu => hws u (by simp [hu])) (by simp)]
      simp [joinWords, joinTail]

theorem trimWs_eq_self {l : List Char}
    (h1 : ∀ c, l.head? = some c → isWsJs c = false)
    (h2 : ∀ c, l.getLast? = some c → isWsJs c = false) : trimWs l = l := by
  have d1 : l.dropWhile isWsJs = l := by
    cases l with
    | nil => rfl
    | cons c cs => exact List.dropWhile_cons_of_neg (by simp [h1 c rfl])
  have d2 : l.reverse.dropWhile isWsJs = l.reverse := by
    cases hr : l.reverse with
    | nil => rfl
    | cons c cs =>
      have hc : l.getLast? = some c := by
        rw [← List.head?_reverse, hr]; rfl
      exact List.dropWhile_cons_of_neg (by simp [h2 c hc])
  unfold trimWs
  rw [d1, d2, List.reverse_reverse]

theorem joinWords_ne_nil {ws : List (List Char)}
    (hws : ∀ w ∈ ws, goodCityWord w) (hne : ws ≠ []) :
    joinWords ws ≠ [] := by
  cases ws with
  | nil => exact absurd rfl hne
  | cons w ws' =>
    obtain ⟨hwne, -, -⟩ := hws w (by simp)
    cases w with
    | nil => exact absurd rfl hwne
    | cons c w' => simp [joinWords]

theorem joinWords_getLast_letter {ws : List (List Char)}
    (hws : ∀ w ∈ ws, goodCityWord w) (hne : ws ≠ []) :
    ∀ c, (joinWords ws).getLast? = some c → isUniLetter c = true := by
  induction ws with
  | nil => exact absurd rfl hne
  | cons w ws' ih =>
    obtain ⟨hwne, hlet, -⟩ := hws w (by simp)
    intro c hc
    cases ws' with
    | nil =>
      rw [show joinWords [w] = w ++ [] from rfl, List.append_nil,
        List.getLast?_eq_getLast_of_ne_nil hwne, Option.some.injEq] at hc
      have hm := List.getLast_mem hwne
      rw [hc] at hm
      exact hlet c hm
    | cons v vs =>
      rw [show joinWords (w :: v :: vs) =
            w ++ (' ' :: joinWords (v :: vs)) from rfl,
        List.getLast?_append_of_ne_nil w (by simp),
        show (' ' :: joinWords (v :: vs)) = [' '] ++ joinWords (v :: vs)
          from rfl,
        List.getLast?_append_of_ne_nil [' ']
          (joinWords_ne_nil (fun u hu => hws u (by simp [hu])) (by simp))]
        at hc
      exact ih (fun u hu => hws u (by simp [hu])) (by simp) c hc

theorem normalizeL_joinWords {ws : List (List Char)}
    (hws : ∀ w ∈ ws, goodCityWord w) (hne : ws ≠ []) :
    normalizeL (joinWords ws) = joinWords ws := by
  unfold normalizeL
  rw [collapse_joinWords hws]
  apply trimWs_eq_self
  · intro c hc
    cases ws with
    | nil => exact absurd rfl hne
    | cons w ws' =>
      obtain ⟨hwne, hlet, -⟩ := hws w (by simp)
      obtain ⟨c0, w', rfl⟩ : ∃ c0 w', w = c0 :: w' := by
        cases w with
        | nil => exact absurd rfl hwne
        | cons a b => exact ⟨a, b, rfl⟩
      rw [show joinWords ((c0 :: w') :: ws') =
            c0 :: (w' ++ joinTail ws') from rfl] at hc
      rw [show (c0 :: (w' ++ joinTail ws')).head? = some c0 from rfl,
        Option.some.injEq] at hc
      rw [← hc]
      exact letter_not_ws (hlet c0 (by simp))
  · intro c hc
    exact letter_not_ws (joinWords_getLast_letter hws hne c hc)

/-! ### Scanning the canonical subject -/

/-- Inside a digit run every position has a word character on its left,
so a `\b`-guarded pattern cannot match there, and neither can it match at
the space that ends the run. -/
theorem scan_skip_digits_word {α : Type}
    (tryf : Option Char → List Char → Option α)
    (hword : ∀ (p : Option Char) (l : List Char), prevIsWord p = true →
      tryf p l = none)
    {a : Char} (ha : isDigitCh a = true) {m : List Char}
    (hm : ∀ c ∈ m, isDigitCh c = true) (r : List Char) :
    scanP tryf (some a) (m ++ ' ' :: r) = scanP tryf (some ' ') r := by
  induction m generalizing a with
  | nil =>
    rw [List.nil_append,
      scanP_cons tryf _ (hword _ _ (by simp [prevIsWord, digit_isWord ha]))]
  | cons b m' ih =>
    rw [List.cons_append,
      scanP_cons tryf _ (hword _ _ (by simp [prevIsWord, digit_isWord ha]))]
    exact ih (hm b (by simp)) (fun c hc => hm c (by simp [hc]))

/-- The date pattern cannot start inside the count `N`: after one or two
digits it needs a dot, but only digits or the following space occur. -/
theorem tryDateY_digits_space (a : Char) (ha : isDigitCh a = true)
    (m : List Char) (hm : ∀ c ∈ m, isDigitCh c = true) (p : Option Char)
    (r : List Char) : tryDateY p (a :: (m ++ ' ' :: r)) = none := by
  by_cases hp : prevIsWord p = true
  · exact tryDateY_prevWord hp _
  · unfold tryDateY
    rw [if_neg hp]
    rcases m with _ | ⟨b, _ | ⟨b2, tl⟩⟩
    · simp [try12Then, ha, expectCh, (by decide : isDigitCh ' ' = false),
        (by decide : (' ' == '.') = false), (by decide : ¬(' ' = '.'))]
    · have hb := hm b (by simp)
      simp [try12Then, ha, hb, expectCh, digit_beq hb '.' (by decide),
        digit_ne hb '.' (by decide), (by decide : isDigitCh ' ' = false),
        (by decide : (' ' == '.') = false), (by decide : ¬(' ' = '.'))]
    · have hb := hm b (by simp)
      have hb2 := hm b2 (by simp)
      simp [try12Then, ha, hb, hb2, expectCh, digit_beq hb '.' (by decide),
        digit_beq hb2 '.' (by decide), digit_ne hb '.' (by decide),
        digit_ne hb2 '.' (by decide)]

/-- Scanning for the year-bearing date skips the leading count. -/
theorem scanDateY_skip_count {n : List Char} (hn : n ≠ [])
    (hnd : ∀ c ∈ n, isDigitCh c = true) (p : Option Char) (r : List Char) :
    scanP tryDateY p (n ++ ' ' :: r) = scanP tryDateY (some ' ') r := by
  cases n with
  | nil => exact absurd rfl hn
  | cons a m =>
    rw [List.cons_append,
      scanP_cons tryDateY p
        (tryDateY_digits_space a (hnd a (by simp)) m
          (fun c hc => hnd c (by simp [hc])) p r)]
    exact scan_skip_digits_word tryDateY
      (fun p l hp => tryDateY_prevWord hp l) (hnd a (by simp))
      (fun c hc => hnd c (by simp [hc])) r

/-- Scanning for the date walks through `Umzugshelfer am ` without a
match: no digit occurs there. -/
theorem scanDateY_concrete (r : List Char) :
    scanP tryDateY (some ' ')
      ("Umzugshelfer".data ++ ' ' :: ("am".data ++ ' ' :: r)) =
      scanP tryDateY (some ' ') r := rfl

/-- The date pattern matches at `DD.MM.YYYY` followed by a space. -/
theorem tryDateY_at_date {d1 d2 m1 m2 y1 y2 y3 y4 : Char}
    (hd1 : isDigitCh d1 = true) (hd2 : isDigitCh d2 = true)
    (hm1 : isDigitCh m1 = true) (hm2 : isDigitCh m2 = true)
    (hy1 : isDigitCh y1 = true) (hy2 : isDigitCh y2 = true)
    (hy3 : isDigitCh y3 = true) (hy4 : isDigitCh y4 = true)
    (R : List Char) :
    tryDateY (some ' ')
      (d1 :: d2 :: '.' :: m1 :: m2 :: '.' :: y1 :: y2 :: y3 :: y4 :: ' ' :: R) =
      some ([d1, d2], [m1, m2], [y1, y2, y3, y4]) := by
  unfold tryDateY
  rw [if_neg (by decide)]
  simp [try12Then, hd1, hd2, hm1, hm2, expectCh, try4Digits, hy1, hy2, hy3,
    hy4, endsWordBoundary, (by decide : isWordCh ' ' = false)]

/-- The time pattern `um|ab HH:MM` skips the leading count as well. -/
theorem scanTime1_skip_count {n : List Char} (hn : n ≠ [])
    (hnd : ∀ c ∈ n, isDigitCh c = true) (p : Option Char) (r : List Char) :
    scanP tryTime1 p (n ++ ' ' :: r) = scanP tryTime1 (some ' ') r := by
  cases n with
  | nil => exact absurd rfl hn
  | cons a m =>
    rw [List.cons_append,
      scanP_cons tryTime1 p (tryTime1_digit_head (hnd a (by simp)) p _)]
    exact scan_skip_digits_word tryTime1
      (fun p l hp => tryTime1_prevWord hp l) (hnd a (by simp))
      (fun c hc => hnd c (by simp [hc])) r

/-- The time scan passes `Umzugshelfer am ` without a match: `Um` is
followed by a letter where `\s+` is required, and `am` is neither `um`
nor `ab`. -/
theorem scanTime1_concrete (r : List Char) :
    scanP tryTime1 (some ' ')
      ("Umzugshelfer".data ++ ' ' :: ("am".data ++ ' ' :: r)) =
      scanP tryTime1 (some ' ') r := rfl

/-- The time scan passes the date `DD.MM.YYYY ` without a match. -/
theorem scanTime1_date_skip {d1 d2 m1 m2 y1 y2 y3 y4 : Char}
    (hd1 : isDigitCh d1 = true) (hd2 : isDigitCh d2 = true)
    (hm1 : isDigitCh m1 = true) (hm2 : isDigitCh m2 = true)
    (hy1 : isDigitCh y1 = true) (hy2 : isDigitCh y2 = true)
    (hy3 : isDigitCh y3 = true) (hy4 : isDigitCh y4 = true)
    (r : List Char) :
    scanP tryTime1 (some ' ')
      (d1 :: d2 :: '.' :: m1 :: m2 :: '.' :: y1 :: y2 :: y3 :: y4 :: ' ' :: r) =
      scanP tryTime1 (some ' ') r := by
  rw [scanP_cons _ _ (tryTime1_digit_head hd1 _ _),
    scanP_cons _ _ (tryTime1_prevWord (by simp [prevIsWord, digit_isWord hd1]) _),
    scanP_cons _ _ (tryTime1_prevWord (by simp [prevIsWord, digit_isWord hd2]) _),
    scanP_cons _ _ (tryTime1_digit_head hm1 _ _),
    scanP_cons _ _ (tryTime1_prevWord (by simp [prevIsWord, digit_isWord hm1]) _),
    scanP_cons _ _ (tryTime1_prevWord (by simp [prevIsWord, digit_isWord hm2]) _),
    scanP_cons _ _ (tryTime1_digit_head hy1 _ _),
    scanP_cons _ _ (tryTime1_prevWord (by simp [prevIsWord, digit_isWord hy1]) _),
    scanP_cons _ _ (tryTime1_prevWord (by simp [prevIsWord, digit_isWord hy2]) _),
    scanP_cons _ _ (tryTime1_prevWord (by simp [prevIsWord, digit_isWord hy3]) _),
    scanP_cons _ _ (tryTime1_prevWord (by simp [prevIsWord, digit_isWord hy4]) _)]

/-- The time pattern matches at `ab HH:MM` followed by a space. -/
theorem tryTime1_at_ab {h1 h2 i1 i2 : Char}
    (hh1 : isDigitCh h1 = true) (hh2 : isDigitCh h2 = true)
    (hi1 : isDigitCh i1 = true) (hi2 : isDigitCh i2 = true) (R : List Char) :
    tryTime1 (some ' ')
      ('a' :: 'b' :: ' ' :: h1 :: h2 :: ':' :: i1 :: i2 :: ' ' :: R) =
      some ([h1, h2], [i1, i2]) := by
  have ht : takeUmAb (some ' ')
      ('a' :: 'b' :: ' ' :: h1 :: h2 :: ':' :: i1 :: i2 :: ' ' :: R) =
      some (' ' :: h1 :: h2 :: ':' :: i1 :: i2 :: ' ' :: R) := by
    unfold takeUmAb
    rw [if_neg (by decide)]
    simp [(by decide :
      (lowCh 'a' == 'u' && lowCh 'b' == 'm' ||
        lowCh 'a' == 'a' && lowCh 'b' == 'b') = true)]
  have hdw : List.dropWhile isWsJs (h1 :: h2 :: ':' :: i1 :: i2 :: ' ' :: R) =
      h1 :: h2 :: ':' :: i1 :: i2 :: ' ' :: R :=
    List.dropWhile_cons_of_neg (by simp [digit_not_ws hh1])
  have hw : wsPlus (' ' :: h1 :: h2 :: ':' :: i1 :: i2 :: ' ' :: R) =
      some (h1 :: h2 :: ':' :: i1 :: i2 :: ' ' :: R) := by
    unfold wsPlus
    simp [(by decide : isWsJs ' ' = true), hdw]
  unfold tryTime1 tryHMcolon
  simp [ht, hw, try12Then, hh1, hh2, expectCh, try2Digits, hi1, hi2,
    endsWordBoundary, (by decide : isWordCh ' ' = false)]

/-! ### The zip-and-city scan over the canonical subject -/

/-- Stop case of the lazy capture. -/
theorem locCapture_stop {l : List Char} (h : locCont l = true)
    (acc : List Char) : locCapture acc l = some acc.reverse := by
  unfold locCapture
  rw [h]
  rfl

/-- Extension case of the lazy capture. -/
theorem locCapture_step {c : Char} {l : List Char}
    (h1 : locCont (c :: l) = false) (h2 : isCityCh c = true)
    (acc : List Char) : locCapture acc (c :: l) = locCapture (c :: acc) l := by
  conv_lhs => rw [locCapture]
  rw [h1, h2]
  rfl

/-- A pattern with no spaces that fails on `w` also fails on `w` followed
by a space. -/
theorem isStartOf_append_space :
    ∀ (p : List Char), (∀ c ∈ p, c ≠ ' ') →
      ∀ (w t : List Char), isStartOf p w = false →
        isStartOf p (w ++ ' ' :: t) = false := by
  intro p
  induction p with
  | nil => intro _ w t h; exact absurd h (by simp [isStartOf])
  | cons q p' ih =>
    intro hp w t h
    cases w with
    | nil =>
      have hq : (q == ' ') = false :=
        beq_eq_false_iff_ne.mpr (hp q (by simp))
      simp [isStartOf, hq]
    | cons c w' =>
      rw [List.cons_append]
      simp only [isStartOf, Bool.and_eq_false_iff] at h ⊢
      rcases h with h | h
      · exact Or.inl h
      · exact Or.inr (ih (fun d hd => hp d (by simp [hd])) w' t h)

/-- Inside a letter word the capture continuation fails: it needs a
whitespace first. -/
theorem locCont_letter_head {c : Char} (hc : isUniLetter c = true)
    (r : List Char) : locCont (c :: r) = false := by
  simp [locCont, wsPlus, letter_not_ws hc]

/-- At a word boundary before a good city word the continuation fails:
the word does not begin with `gesucht`. -/
theorem locCont_word_boundary {w : List Char}
    (hw : ∀ c ∈ w, isUniLetter c = true) (hne : w ≠ [])
    (hg : isStartOf "gesucht".data w = false) (t : List Char) :
    locCont (' ' :: (w ++ ' ' :: t)) = false := by
  obtain ⟨c0, w0, rfl⟩ : ∃ c0 w0, w = c0 :: w0 := by
    cases w with
    | nil => exact absurd rfl hne
    | cons a b => exact ⟨a, b, rfl⟩
  have hdw : List.dropWhile isWsJs ((c0 :: w0) ++ ' ' :: t) =
      (c0 :: w0) ++ ' ' :: t :=
    List.dropWhile_cons_of_neg (by simp [letter_not_ws (hw c0 (by simp))])
  have hst : isStartOf "gesucht".data ((c0 :: w0) ++ ' ' :: t) = false :=
    isStartOf_append_space "gesucht".data (by decide) (c0 :: w0) t hg
  have hws : wsPlus (' ' :: ((c0 :: w0) ++ ' ' :: t)) =
      some ((c0 :: w0) ++ ' ' :: t) := by
    rw [show wsPlus (' ' :: ((c0 :: w0) ++ ' ' :: t)) =
        some (List.dropWhile isWsJs ((c0 :: w0) ++ ' ' :: t)) from rfl, hdw]
  simp only [locCont, hws, hst, Bool.false_and]

/-- The lazy capture walks through a letter word, extending the capture
character by character. -/
theorem cap_through_word {x t : List Char}
    (ht : ∀ acc, locCapture acc t = some (acc.reverse ++ x)) :
    ∀ (cur : List Char), (∀ c ∈ cur, isUniLetter c = true) →
      ∀ acc, locCapture acc (cur ++ t) = some (acc.reverse ++ (cur ++ x)) := by
  intro cur
  induction cur with
  | nil => intro _ acc; simpa using ht acc
  | cons c cur' ih =>
    intro hcur acc
    rw [List.cons_append,
      locCapture_step (locCont_letter_head (hcur c (by simp)) _)
        (letter_isCity (hcur c (by simp))) acc,
      ih (fun d hd => hcur d (by simp [hd])) (c :: acc)]
    simp

/-- The lazy capture over the joined city tail stops exactly at the
closing ` gesucht`. -/
theorem cap_tail (ws : List (List Char))
    (hws : ∀ w ∈ ws, goodCityWord w) :
    ∀ acc, locCapture acc (joinTail ws ++ ' ' :: "gesucht".data) =
      some (acc.reverse ++ joinTail ws) := by
  induction ws with
  | nil =>
    intro acc
    rw [show joinTail [] ++ ' ' :: "gesucht".data = ' ' :: "gesucht".data
        from rfl,
      locCapture_stop (by decide) acc]
    simp [joinTail]
  | cons w ws' ih =>
    intro acc
    obtain ⟨hne, hlet, hg⟩ := hws w (by simp)
    have hshape : joinTail (w :: ws') ++ ' ' :: "gesucht".data =
        ' ' :: (w ++ (joinTail ws' ++ ' ' :: "gesucht".data)) := by
      simp [joinTail]
    rw [hshape]
    obtain ⟨t', ht'⟩ : ∃ t',
        joinTail ws' ++ ' ' :: "gesucht".data = ' ' :: t' := by
      cases ws' with
      | nil => exact ⟨"gesucht".data, rfl⟩
      | cons v vs =>
        exact ⟨(v ++ joinTail vs) ++ ' ' :: "gesucht".data, by
          simp [joinTail]⟩
    have hcont : locCont
        (' ' :: (w ++ (joinTail ws' ++ ' ' :: "gesucht".data))) = false := by
      rw [ht']
      exact locCont_word_boundary hlet hne hg t'
    rw [locCapture_step hcont (by decide) acc,
      cap_through_word (ih (fun u hu => hws u (by simp [hu]))) w hlet
        (' ' :: acc)]
    simp [joinTail]

/-- Two digits followed by a non-digit cannot start the zip pattern. -/
theorem tryLoc_two_digits {a b c : Char} (ha : isDigitCh a = true)
    (hb : isDigitCh b = true) (hc : isDigitCh c = false) (p : Option Char)
    (l : List Char) : tryLoc p (a :: b :: c :: l) = none := by
  by_cases hp : prevIsWord p = true
  · exact tryLoc_prevWord hp _
  · unfold tryLoc
    rw [if_neg hp]
    rcases l with _ | ⟨x, _ | ⟨y, tl⟩⟩ <;> simp [try5Digits, ha, hb, hc]

/-- Four digits followed by a non-digit cannot start the zip pattern. -/
theorem tryLoc_four_digits {a b c d e : Char} (ha : isDigitCh a = true)
    (hb : isDigitCh b = true) (hc : isDigitCh c = true)
    (hd : isDigitCh d = true) (he : isDigitCh e = false) (p : Option Char)
    (l : List Char) : tryLoc p (a :: b :: c :: d :: e :: l) = none := by
  by_cases hp : prevIsWord p = true
  · exact tryLoc_prevWord hp _
  · unfold tryLoc
    rw [if_neg hp]
    simp [try5Digits, ha, hb, hc, hd, he]

/-- The zip pattern fails at the leading count `N `, whatever the length
of `N`: with fewer or more than five digits the digit block or the
following `\s+` fails, and with exactly five the lazy capture runs into
the digits of the date. -/
theorem tryLoc_at_count {n : List Char} (hnd : ∀ c ∈ n, isDigitCh c = true)
    (hne : n ≠ []) {d1 : Char} (hd1 : isDigitCh d1 = true)
    (p : Option Char) (drest : List Char) :
    tryLoc p (n ++ ' ' :: ("Umzugshelfer".data ++ ' ' ::
      ("am".data ++ ' ' :: (d1 :: drest)))) = none := by
  by_cases hp : prevIsWord p = true
  · exact tryLoc_prevWord hp _
  · rcases n with _ | ⟨a, _ | ⟨b, _ | ⟨c, _ | ⟨d, _ | ⟨e, _ | ⟨f, tl⟩⟩⟩⟩⟩⟩
    · exact absurd rfl hne
    · unfold tryLoc
      rw [if_neg hp]
      simp [try5Digits, (by decide : isDigitCh ' ' = false),
        hnd a (by simp)]
    · unfold tryLoc
      rw [if_neg hp]
      simp [try5Digits, (by decide : isDigitCh ' ' = false),
        hnd a (by simp), hnd b (by simp)]
    · unfold tryLoc
      rw [if_neg hp]
      simp [try5Digits, (by decide : isDigitCh ' ' = false),
        hnd a (by simp), hnd b (by simp), hnd c (by simp)]
    · unfold tryLoc
      rw [if_neg hp]
      simp [try5Digits, (by decide : isDigitCh ' ' = false),
        hnd a (by simp), hnd b (by simp), hnd c (by simp),
        hnd d (by simp)]
    · -- exactly five digits: the capture walks into the date digits
      unfold tryLoc
      rw [if_neg hp]
      have h5 : try5Digits (a :: b :: c :: d :: e :: ' ' :: 'U' :: 'm' ::
          'z' :: 'u' :: 'g' :: 's' :: 'h' :: 'e' :: 'l' :: 'f' :: 'e' ::
          'r' :: ' ' :: 'a' :: 'm' :: ' ' :: d1 :: drest) =
          some ([a, b, c, d, e], ' ' :: 'U' :: 'm' :: 'z' :: 'u' :: 'g' ::
            's' :: 'h' :: 'e' :: 'l' :: 'f' :: 'e' :: 'r' :: ' ' :: 'a' ::
            'm' :: ' ' :: d1 :: drest) := by
        simp [try5Digits, hnd a (by simp), hnd b (by simp),
          hnd c (by simp), hnd d (by simp), hnd e (by simp)]
      have hw : wsPlus (' ' :: 'U' :: 'm' :: 'z' :: 'u' :: 'g' :: 's' ::
          'h' :: 'e' :: 'l' :: 'f' :: 'e' :: 'r' :: ' ' :: 'a' :: 'm' ::
          ' ' :: d1 :: drest) =
          some ('U' :: 'm' :: 'z' :: 'u' :: 'g' :: 's' :: 'h' :: 'e' ::
            'l' :: 'f' :: 'e' :: 'r' :: ' ' :: 'a' :: 'm' :: ' ' ::
            d1 :: drest) := rfl
      -- the capture consumes `Umzugshelfer am ` and dies at the digit
      have hstop : locCapture
          ['z' ,'m', 'U'] ('u' :: 'g' :: 's' :: 'h' :: 'e' :: 'l' :: 'f' ::
            'e' :: 'r' :: ' ' :: 'a' :: 'm' :: ' ' :: d1 :: drest) =
          none := by
        have hcont1 : ∀ (acc : List Char) (r : List Char),
            locCapture acc (' ' :: d1 :: r) = none := by
          intro acc r
          have hc1 : locCont (' ' :: d1 :: r) = false := by
            have hdw : List.dropWhile isWsJs (d1 :: r) = d1 :: r :=
              List.dropWhile_cons_of_neg (by simp [digit_not_ws hd1])
            simp [locCont, wsPlus, (by decide : isWsJs ' ' = true), hdw,
              isStartOf, beq_digit hd1 'g' (by decide)]
          rw [locCapture_step hc1 (by decide) acc]
          have hc2 : locCont (d1 :: r) = false := by
            simp [locCont, wsPlus, digit_not_ws hd1]
          conv_lhs => rw [locCapture]
          rw [hc2, digit_not_city hd1]
          rfl
        -- walk the remaining concrete letters one by one
        rw [locCapture_step (by
            simp [locCont, wsPlus, (by decide : isWsJs 'u' = false)])
          (by decide)]
        rw [locCapture_step (by
            simp [locCont, wsPlus, (by decide : isWsJs 'g' = false)])
          (by decide)]
        rw [locCapture_step (by
            simp [locCont, wsPlus, (by decide : isWsJs 's' = false)])
          (by decide)]
        rw [locCapture_step (by
            simp [locCont, wsPlus, (by decide : isWsJs 'h' = false)])
          (by decide)]
        rw [locCapture_step (by
            simp [locCont, wsPlus, (by decide : isWsJs 'e' = false)])
          (by decide)]
        rw [locCapture_step (by
            simp [locCont, wsPlus, (by decide : isWsJs 'l' = false)])
          (by decide)]
        rw [locCapture_step (by
            simp [locCont, wsPlus, (by decide : isWsJs 'f' = false)])
          (by decide)]
        rw [locCapture_step (by
            simp [locCont, wsPlus, (by decide : isWsJs 'e' = false)])
          (by decide)]
        rw [locCapture_step (by
            simp [locCont, wsPlus, (by decide : isWsJs 'r' = false)])
          (by decide)]
        rw [locCapture_step (by
            simp [locCont, wsPlus, (by decide : isWsJs ' ' = true),
              (by decide : List.dropWhile isWsJs ('a' :: 'm' :: []) =
                'a' :: 'm' :: []), isStartOf,
              show List.dropWhile isWsJs ('a' :: 'm' :: ' ' :: d1 :: drest)
                  = 'a' :: 'm' :: ' ' :: d1 :: drest from
                List.dropWhile_cons_of_neg (by decide)])
          (by decide)]
        rw [locCapture_step (by
            simp [locCont, wsPlus, (by decide : isWsJs 'a' = false)])
          (by decide)]
        rw [locCapture_step (by
            simp [locCont, wsPlus, (by decide : isWsJs 'm' = false)])
          (by decide)]
        exact hcont1 _ _
      have hcap : locCapture ['U'] ('m' :: 'z' :: 'u' :: 'g' :: 's' ::
          'h' :: 'e' :: 'l' :: 'f' :: 'e' :: 'r' :: ' ' :: 'a' :: 'm' ::
          ' ' :: d1 :: drest) = none := by
        rw [locCapture_step (by
            simp [locCont, wsPlus, (by decide : isWsJs 'm' = false)])
          (by decide)]
        rw [locCapture_step (by
            simp [locCont, wsPlus, (by decide : isWsJs 'z' = false)])
          (by decide)]
        exact hstop
      simp [h5, hw, (by decide : isCityCh 'U' = true), hcap]
    · -- six or more digits: `\s+` fails on the sixth digit
      unfold tryLoc
      rw [if_neg hp]
      have h5 : try5Digits ((a :: b :: c :: d :: e :: f :: tl) ++ ' ' ::
          ("Umzugshelfer".data ++ ' ' :: ("am".data ++ ' ' ::
            (d1 :: drest)))) =
          some ([a, b, c, d, e], f :: (tl ++ ' ' ::
            ("Umzugshelfer".data ++ ' ' :: ("am".data ++ ' ' ::
              (d1 :: drest))))) := by
        simp [try5Digits, hnd a (by simp), hnd b (by simp),
          hnd c (by simp), hnd d (by simp), hnd e (by simp)]
      rw [h5]
      simp [wsPlus, digit_not_ws (hnd f (by simp))]

/-- The zip scan skips the leading count of the canonical subject. -/
theorem scanLoc_skip_count {n : List Char} (hn : n ≠ [])
    (hnd : ∀ c ∈ n, isDigitCh c = true) {d1 : Char}
    (hd1 : isDigitCh d1 = true) (drest : List Char) :
    scanP tryLoc none (n ++ ' ' :: ("Umzugshelfer".data ++ ' ' ::
      ("am".data ++ ' ' :: (d1 :: drest)))) =
      scanP tryLoc (some ' ') ("Umzugshelfer".data ++ ' ' ::
        ("am".data ++ ' ' :: (d1 :: drest))) := by
  cases n with
  | nil => exact absurd rfl hn
  | cons a m =>
    rw [List.cons_append,
      scanP_cons tryLoc none (by
        have h := tryLoc_at_count hnd hn hd1 none drest
        simpa using h)]
    exact scan_skip_digits_word tryLoc
      (fun p l hp => tryLoc_prevWord hp l) (hnd a (by simp))
      (fun c hc => hnd c (by simp [hc]))
      ("Umzugshelfer".data ++ ' ' :: ("am".data ++ ' ' :: (d1 :: drest)))

/-- The zip scan passes `Umzugshelfer am ` without a match: no five-digit
run begins there. -/
theorem scanLoc_concrete (d1 d2 m1 : Char) (rest : List Char) :
    scanP tryLoc (some ' ') ("Umzugshelfer".data ++ ' ' ::
      ("am".data ++ ' ' :: (d1 :: d2 :: '.' :: m1 :: rest))) =
      scanP tryLoc (some ' ') (d1 :: d2 :: '.' :: m1 :: rest) := rfl

/-- The zip scan passes the date, the time and `Uhr in ` without a
match: every five-character window there contains a dot, colon or
space. -/
theorem scanLoc_mid_skip {d1 d2 m1 m2 y1 y2 y3 y4 h1 h2 i1 i2 : Char}
    (hd1 : isDigitCh d1 = true) (hd2 : isDigitCh d2 = true)
    (hm1 : isDigitCh m1 = true) (hm2 : isDigitCh m2 = true)
    (hy1 : isDigitCh y1 = true) (hy2 : isDigitCh y2 = true)
    (hy3 : isDigitCh y3 = true) (hy4 : isDigitCh y4 = true)
    (hh1 : isDigitCh h1 = true) (hh2 : isDigitCh h2 = true)
    (hi1 : isDigitCh i1 = true) (hi2 : isDigitCh i2 = true)
    (r : List Char) :
    scanP tryLoc (some ' ') (d1 :: d2 :: '.' :: m1 :: m2 :: '.' ::
      y1 :: y2 :: y3 :: y4 :: ' ' :: 'a' :: 'b' :: ' ' :: h1 :: h2 :: ':' ::
      i1 :: i2 :: ' ' :: 'U' :: 'h' :: 'r' :: ' ' :: 'i' :: 'n' :: ' ' ::
      r) = scanP tryLoc (some ' ') r := by
  rw [scanP_cons _ _ (tryLoc_two_digits hd1 hd2 (by decide) _ _),
    scanP_cons _ _ (tryLoc_prevWord (by simp [prevIsWord, digit_isWord hd1]) _),
    scanP_cons _ _ (tryLoc_prevWord (by simp [prevIsWord, digit_isWord hd2]) _),
    scanP_cons _ _ (tryLoc_two_digits hm1 hm2 (by decide) _ _),
    scanP_cons _ _ (tryLoc_prevWord (by simp [prevIsWord, digit_isWord hm1]) _),
    scanP_cons _ _ (tryLoc_prevWord (by simp [prevIsWord, digit_isWord hm2]) _),
    scanP_cons _ _ (tryLoc_four_digits hy1 hy2 hy3 hy4 (by decide) _ _),
    scanP_cons _ _ (tryLoc_prevWord (by simp [prevIsWord, digit_isWord hy1]) _),
    scanP_cons _ _ (tryLoc_prevWord (by simp [prevIsWord, digit_isWord hy2]) _),
    scanP_cons _ _ (tryLoc_prevWord (by simp [prevIsWord, digit_isWord hy3]) _),
    scanP_cons _ _ (tryLoc_prevWord (by simp [prevIsWord, digit_isWord hy4]) _),
    scanP_cons _ _ (tryLoc_nondigit_head (by decide) _ _),
    scanP_cons _ _ (tryLoc_prevWord (by decide) _),
    scanP_cons _ _ (tryLoc_prevWord (by decide) _),
    scanP_cons _ _ (tryLoc_two_digits hh1 hh2 (by decide) _ _),
    scanP_cons _ _ (tryLoc_prevWord (by simp [prevIsWord, digit_isWord hh1]) _),
    scanP_cons _ _ (tryLoc_prevWord (by simp [prevIsWord, digit_isWord hh2]) _),
    scanP_cons _ _ (tryLoc_two_digits hi1 hi2 (by decide) _ _),
    scanP_cons _ _ (tryLoc_prevWord (by simp [prevIsWord, digit_isWord hi1]) _),
    scanP_cons _ _ (tryLoc_prevWord (by simp [prevIsWord, digit_isWord hi2]) _),
    scanP_cons _ _ (tryLoc_nondigit_head (by decide) _ _),
    scanP_cons _ _ (tryLoc_prevWord (by decide) _),
    scanP_cons _ _ (tryLoc_prevWord (by decide) _),
    scanP_cons _ _ (tryLoc_prevWord (by decide) _),
    scanP_cons _ _ (tryLoc_nondigit_head (by decide) _ _),
    scanP_cons _ _ (tryLoc_prevWord (by decide) _),
    scanP_cons _ _ (tryLoc_prevWord (by decide) _)]

/-- The zip pattern matches at `ZZZZZ City gesucht`, capturing the zip
and the city words. -/
theorem tryLoc_at_zip {za zb zc zd ze : Char}
    (hza : isDigitCh za = true) (hzb : isDigitCh zb = true)
    (hzc : isDigitCh zc = true) (hzd : isDigitCh zd = true)
    (hze : isDigitCh ze = true) {ws : List (List Char)}
    (hws : ∀ w ∈ ws, goodCityWord w) (hne : ws ≠ []) :
    tryLoc (some ' ') (za :: zb :: zc :: zd :: ze :: ' ' ::
      (joinWords ws ++ ' ' :: "gesucht".data)) =
      some ([za, zb, zc, zd, ze], joinWords ws) := by
  obtain ⟨w, ws', rfl⟩ : ∃ w ws', ws = w :: ws' := by
    cases ws with
    | nil => exact absurd rfl hne
    | cons a b => exact ⟨a, b, rfl⟩
  obtain ⟨hwne, hwlet, hwg⟩ := hws w (by simp)
  obtain ⟨c0, w0, rfl⟩ : ∃ c0 w0, w = c0 :: w0 := by
    cases w with
    | nil => exact absurd rfl hwne
    | cons a b => exact ⟨a, b, rfl⟩
  have hshape : joinWords ((c0 :: w0) :: ws') ++ ' ' :: "gesucht".data =
      c0 :: (w0 ++ (joinTail ws' ++ ' ' :: "gesucht".data)) := by
    simp [joinWords]
  have h5 : try5Digits (za :: zb :: zc :: zd :: ze :: ' ' :: c0 ::
      (w0 ++ (joinTail ws' ++ ' ' :: "gesucht".data))) =
      some ([za, zb, zc, zd, ze], ' ' :: c0 ::
        (w0 ++ (joinTail ws' ++ ' ' :: "gesucht".data))) := by
    simp [try5Digits, hza, hzb, hzc, hzd, hze]
  have hw : wsPlus (' ' :: c0 :: (w0 ++ (joinTail ws' ++ ' ' ::
      "gesucht".data))) = some (c0 :: (w0 ++ (joinTail ws' ++ ' ' ::
      "gesucht".data))) := by
    rw [show wsPlus (' ' :: c0 :: (w0 ++ (joinTail ws' ++ ' ' ::
        "gesucht".data))) = some (List.dropWhile isWsJs
          (c0 :: (w0 ++ (joinTail ws' ++ ' ' :: "gesucht".data))))
      from rfl,
      List.dropWhile_cons_of_neg (by
        simp [letter_not_ws (hwlet c0 (by simp))])]
  have hcap : locCapture [c0] (w0 ++ (joinTail ws' ++ ' ' ::
      "gesucht".data)) = some (c0 :: (w0 ++ joinTail ws')) := by
    have h := cap_through_word
      (cap_tail ws' (fun u hu => hws u (by simp [hu]))) w0
      (fun c hc => hwlet c (by simp [hc])) [c0]
    simpa using h
  unfold tryLoc
  rw [if_neg (by decide), hshape]
  simp [h5, hw, hcap, letter_isCity (hwlet c0 (by simp)), joinWords]

/-- The zip-and-city scan over the whole canonical subject returns the
zip together with the city words. -/
theorem scanLoc_canon {n : List Char} (hn : n ≠ [])
    (hnd : ∀ c ∈ n, isDigitCh c = true)
    {d1 d2 m1 m2 y1 y2 y3 y4 h1 h2 i1 i2 za zb zc zd ze : Char}
    (hd1 : isDigitCh d1 = true) (hd2 : isDigitCh d2 = true)
    (hm1 : isDigitCh m1 = true) (hm2 : isDigitCh m2 = true)
    (hy1 : isDigitCh y1 = true) (hy2 : isDigitCh y2 = true)
    (hy3 : isDigitCh y3 = true) (hy4 : isDigitCh y4 = true)
    (hh1 : isDigitCh h1 = true) (hh2 : isDigitCh h2 = true)
    (hi1 : isDigitCh i1 = true) (hi2 : isDigitCh i2 = true)
    (hza : isDigitCh za = true) (hzb : isDigitCh zb = true)
    (hzc : isDigitCh zc = true) (hzd : isDigitCh zd = true)
    (hze : isDigitCh ze = true) {ws : List (List Char)}
    (hws : ∀ w ∈ ws, goodCityWord w) (hwne : ws ≠ []) :
    scanP tryLoc none (canonSubject n [d1, d2] [m1, m2] [y1, y2, y3, y4]
      [h1, h2] [i1, i2] [za, zb, zc, zd, ze] ws) =
      some ([za, zb, zc, zd, ze], joinWords ws) := by
  show scanP tryLoc none (n ++ ' ' :: ("Umzugshelfer".data ++ ' ' ::
      ("am".data ++ ' ' :: (d1 :: d2 :: '.' :: m1 :: m2 :: '.' ::
        y1 :: y2 :: y3 :: y4 :: ' ' :: 'a' :: 'b' :: ' ' :: h1 :: h2 ::
        ':' :: i1 :: i2 :: ' ' :: 'U' :: 'h' :: 'r' :: ' ' :: 'i' :: 'n' ::
        ' ' :: (za :: zb :: zc :: zd :: ze :: ' ' ::
          (joinWords ws ++ ' ' :: "gesucht".data)))))) =
    some ([za, zb, zc, zd, ze], joinWords ws)
  rw [scanLoc_skip_count hn hnd hd1 _, scanLoc_concrete d1 d2 m1 _,
    scanLoc_mid_skip hd1 hd2 hm1 hm2 hy1 hy2 hy3 hy4 hh1 hh2 hi1 hi2 _,
    scanP_cons_some tryLoc _ (tryLoc_at_zip hza hzb hzc hzd hze hws hwne)]

/-- The date scan over the whole canonical subject returns the day,
month and year digit groups. -/
theorem scanDateY_canon {n : List Char} (hn : n ≠ [])
    (hnd : ∀ c ∈ n, isDigitCh c = true)
    {d1 d2 m1 m2 y1 y2 y3 y4 : Char}
    (hd1 : isDigitCh d1 = true) (hd2 : isDigitCh d2 = true)
    (hm1 : isDigitCh m1 = true) (hm2 : isDigitCh m2 = true)
    (hy1 : isDigitCh y1 = true) (hy2 : isDigitCh y2 = true)
    (hy3 : isDigitCh y3 = true) (hy4 : isDigitCh y4 = true)
    (hh mi zp : List Char) (ws : List (List Char)) :
    scanP tryDateY none (canonSubject n [d1, d2] [m1, m2]
      [y1, y2, y3, y4] hh mi zp ws) =
      some ([d1, d2], [m1, m2], [y1, y2, y3, y4]) := by
  show scanP tryDateY none (n ++ ' ' :: ("Umzugshelfer".data ++ ' ' ::
      ("am".data ++ ' ' :: (d1 :: d2 :: '.' :: m1 :: m2 :: '.' ::
        y1 :: y2 :: y3 :: y4 :: ' ' :: ("ab".data ++ ' ' ::
          (hh ++ ':' :: (mi ++ ' ' :: ("Uhr".data ++ ' ' ::
            ("in".data ++ ' ' :: (zp ++ ' ' ::
              (joinWords ws ++ ' ' :: "gesucht".data))))))))))) =
    some ([d1, d2], [m1, m2], [y1, y2, y3, y4])
  rw [scanDateY_skip_count hn hnd none _, scanDateY_concrete,
    scanP_cons_some tryDateY _
      (tryDateY_at_date hd1 hd2 hm1 hm2 hy1 hy2 hy3 hy4 _)]

/-- The time scan over the whole canonical subject returns the hour and
minute digit groups. -/
theorem scanTime1_canon {n : List Char} (hn : n ≠ [])
    (hnd : ∀ c ∈ n, isDigitCh c = true)
    {d1 d2 m1 m2 y1 y2 y3 y4 h1 h2 i1 i2 : Char}
    (hd1 : isDigitCh d1 = true) (hd2 : isDigitCh d2 = true)
    (hm1 : isDigitCh m1 = true) (hm2 : isDigitCh m2 = true)
    (hy1 : isDigitCh y1 = true) (hy2 : isDigitCh y2 = true)
    (hy3 : isDigitCh y3 = true) (hy4 : isDigitCh y4 = true)
    (hh1 : isDigitCh h1 = true) (hh2 : isDigitCh h2 = true)
    (hi1 : isDigitCh i1 = true) (hi2 : isDigitCh i2 = true)
    (zp : List Char) (ws : List (List Char)) :
    scanP tryTime1 none (canonSubject n [d1, d2] [m1, m2]
      [y1, y2, y3, y4] [h1, h2] [i1, i2] zp ws) =
      some ([h1, h2], [i1, i2]) := by
  show scanP tryTime1 none (n ++ ' ' :: ("Umzugshelfer".data ++ ' ' ::
      ("am".data ++ ' ' :: (d1 :: d2 :: '.' :: m1 :: m2 :: '.' ::
        y1 :: y2 :: y3 :: y4 :: ' ' :: ('a' :: 'b' :: ' ' ::
          (h1 :: h2 :: ':' :: i1 :: i2 :: ' ' :: ("Uhr".data ++ ' ' ::
            ("in".data ++ ' ' :: (zp ++ ' ' ::
              (joinWords ws ++ ' ' :: "gesucht".data)))))))))) =
    some ([h1, h2], [i1, i2])
  rw [scanTime1_skip_count hn hnd none _, scanTime1_concrete,
    scanTime1_date_skip hd1 hd2 hm1 hm2 hy1 hy2 hy3 hy4,
    scanP_cons_some tryTime1 _ (tryTime1_at_ab hh1 hh2 hi1 hi2 _)]

/-- The canonical subject is already whitespace-normalized: collapsing
runs of whitespace and trimming both ends leaves it unchanged. -/
theorem normalizeL_canon {n : List Char} (hn : n ≠ [])
    (hnd : ∀ c ∈ n, isDigitCh c = true)
    {d1 d2 m1 m2 y1 y2 y3 y4 h1 h2 i1 i2 za zb zc zd ze : Char}
    (hd1 : isDigitCh d1 = true) (hd2 : isDigitCh d2 = true)
    (hm1 : isDigitCh m1 = true) (hm2 : isDigitCh m2 = true)
    (hy1 : isDigitCh y1 = true) (hy2 : isDigitCh y2 = true)
    (hy3 : isDigitCh y3 = true) (hy4 : isDigitCh y4 = true)
    (hh1 : isDigitCh h1 = true) (hh2 : isDigitCh h2 = true)
    (hi1 : isDigitCh i1 = true) (hi2 : isDigitCh i2 = true)
    (hza : isDigitCh za = true) (hzb : isDigitCh zb = true)
    (hzc : isDigitCh zc = true) (hzd : isDigitCh zd = true)
    (hze : isDigitCh ze = true) {ws : List (List Char)}
    (hws : ∀ w ∈ ws, goodCityWord w) (hwne : ws ≠ []) :
    normalizeL (canonSubject n [d1, d2] [m1, m2] [y1, y2, y3, y4]
      [h1, h2] [i1, i2] [za, zb, zc, zd, ze] ws) =
      canonSubject n [d1, d2] [m1, m2] [y1, y2, y3, y4]
        [h1, h2] [i1, i2] [za, zb, zc, zd, ze] ws := by
  obtain ⟨a, n', rfl⟩ : ∃ a n', n = a :: n' := by
    cases n with
    | nil => exact absurd rfl hn
    | cons a b => exact ⟨a, b, rfl⟩
  have hcol : collapseGo false (canonSubject (a :: n') [d1, d2] [m1, m2]
      [y1, y2, y3, y4] [h1, h2] [i1, i2] [za, zb, zc, zd, ze] ws) =
      canonSubject (a :: n') [d1, d2] [m1, m2] [y1, y2, y3, y4]
        [h1, h2] [i1, i2] [za, zb, zc, zd, ze] ws := by
    show collapseGo false ((a :: n') ++ ' ' :: ("Umzugshelfer".data ++
        ' ' :: ("am".data ++ ' ' :: (d1 :: d2 :: '.' :: m1 :: m2 :: '.' ::
        y1 :: y2 :: y3 :: y4 :: ' ' :: ('a' :: 'b' :: ' ' :: (h1 :: h2 ::
        ':' :: i1 :: i2 :: ' ' :: ('U' :: 'h' :: 'r' :: ' ' :: ('i' ::
        'n' :: ' ' :: (za :: zb :: zc :: zd :: ze :: ' ' ::
        (joinWords ws ++ ' ' :: "gesucht".data)))))))))) = _
    rw [collapseGo_false_append
        (fun c hc => digit_not_ws (hnd c hc)) _,
      collapseGo_space,
      collapseGo_append_nonws (by decide) (by decide) true,
      collapseGo_space,
      collapseGo_append_nonws (by decide) (by decide) true,
      collapseGo_space]
    rw [collapseGo_cons_nonws (digit_not_ws hd1),
      collapseGo_cons_nonws (digit_not_ws hd2),
      collapseGo_cons_nonws (by decide),
      collapseGo_cons_nonws (digit_not_ws hm1),
      collapseGo_cons_nonws (digit_not_ws hm2),
      collapseGo_cons_nonws (by decide),
      collapseGo_cons_nonws (digit_not_ws hy1),
      collapseGo_cons_nonws (digit_not_ws hy2),
      collapseGo_cons_nonws (digit_not_ws hy3),
      collapseGo_cons_nonws (digit_not_ws hy4),
      collapseGo_space,
      collapseGo_cons_nonws (by decide),
      collapseGo_cons_nonws (by decide),
      collapseGo_space,
      collapseGo_cons_nonws (digit_not_ws hh1),
      collapseGo_cons_nonws (digit_not_ws hh2),
      collapseGo_cons_nonws (by decide),
      collapseGo_cons_nonws (digit_not_ws hi1),
      collapseGo_cons_nonws (digit_not_ws hi2),
      collapseGo_space,
      collapseGo_cons_nonws (by decide),
      collapseGo_cons_nonws (by decide),
      collapseGo_cons_nonws (by decide),
      collapseGo_space,
      collapseGo_cons_nonws (by decide),
      collapseGo_cons_nonws (by decide),
      collapseGo_space,
      collapseGo_cons_nonws (digit_not_ws hza),
      collapseGo_cons_nonws (digit_not_ws hzb),
      collapseGo_cons_nonws (digit_not_ws hzc),
      collapseGo_cons_nonws (digit_not_ws hzd),
      collapseGo_cons_nonws (digit_not_ws hze),
      collapseGo_space,
      collapse_city hws hwne,
      (by decide : collapseGo true "gesucht".data = "gesucht".data)]
    rfl
  unfold normalizeL
  rw [hcol]
  apply trimWs_eq_self
  · intro c hc
    have : c = a := by
      have hh : (canonSubject (a :: n') [d1, d2] [m1, m2]
          [y1, y2, y3, y4] [h1, h2] [i1, i2] [za, zb, zc, zd, ze]
          ws).head? = some a := rfl
      rw [hh, Option.some.injEq] at hc
      exact hc.symm
    rw [this]
    exact digit_not_ws (hnd a (by simp))
  · intro c hc
    have hsplit : canonSubject (a :: n') [d1, d2] [m1, m2]
        [y1, y2, y3, y4] [h1, h2] [i1, i2] [za, zb, zc, zd, ze] ws =
        ((a :: n') ++ ' ' :: ("Umzugshelfer".data ++ ' ' :: ("am".data ++
          ' ' :: ([d1, d2] ++ '.' :: ([m1, m2] ++ '.' ::
          ([y1, y2, y3, y4] ++ ' ' :: ("ab".data ++ ' ' ::
          ([h1, h2] ++ ':' :: ([i1, i2] ++ ' ' :: ("Uhr".data ++ ' ' ::
          ("in".data ++ ' ' :: ([za, zb, zc, zd, ze] ++ ' ' ::
          (joinWords ws ++ [' ']))))))))))))) ++ "gesucht".data := by
      simp [canonSubject, List.append_assoc]
    rw [hsplit, List.getLast?_append_of_ne_nil _ (by decide)] at hc
    have : c = 't' := by
      rw [(by decide : ("gesucht".data).getLast? = some 't'),
        Option.some.injEq] at hc
      exact hc.symm
    rw [this]
    decide

/-! ### Helper lemmas -/

/-- `parseRest` only ever returns records whose date is the one passed
in. -/
theorem parseRest_date {t d : List Char} {r : JobRec}
    (h : parseRest t d = some r) : r.date = d := by
  unfold parseRest at h
  rcases ht : timeSearch t with _ | ⟨hh, mm⟩ <;> rw [ht] at h
  · exact absurd h (by simp)
  · rcases hl : scanP tryLoc none t with _ | ⟨zz, city⟩ <;> rw [hl] at h
    · exact absurd h (by simp)
    · cases h; rfl

/-- `parseRest` is `none` whenever the time search or the location search
fails. -/
theorem parseRest_none {t : List Char}
    (h : timeSearch t = none ∨ scanP tryLoc none t = none) (d : List Char) :
    parseRest t d = none := by
  unfold parseRest
  rcases h with h | h
  · rw [h]
  · rcases ht : timeSearch t with _ | ⟨hh, mm⟩
    · rfl
    · rw [h]

/-! ### Claim C5 -/

/-- C5: a subject with no time token (in the sense of the five time
patterns of the parser), or with no five-digit zip token followed by city
text, is parsed to `null`, whatever the receivedAt year and the clock
year. -/
theorem parser_null_without_time_or_loc (subj : List Char) (iy ny : Nat)
    (h : hasTimeToken subj = false ∨ hasLocToken subj = false) :
    parseJobDetailsFromSubject subj iy ny = none := by
  have hrest : ∀ d, parseRest (removeMorgen (normalizeL subj)) d = none := by
    intro d
    apply parseRest_none
    rcases h with h | h
    · left
      unfold hasTimeToken at h
      rcases ht : timeSearch (removeMorgen (normalizeL subj)) with _ | v
      · rfl
      · rw [ht] at h; exact absurd h (by simp)
    · right
      unfold hasLocToken at h
      rcases ht : scanP tryLoc none (removeMorgen (normalizeL subj)) with _ | v
      · rfl
      · rw [ht] at h; exact absurd h (by simp)
  by_cases he : subj.isEmpty
  · simp [parseJobDetailsFromSubject, he]
  · by_cases hk : nonJobCheck (normalizeL subj)
    · simp [parseJobDetailsFromSubject, he, hk]
    · rcases hd : scanP tryDateY none (removeMorgen (normalizeL subj)) with
        _ | ⟨dd, mm, yy⟩
      · rcases hd2 : scanP tryDateNoY none (removeMorgen (normalizeL subj))
          with _ | ⟨dd, mm⟩
        · simp [parseJobDetailsFromSubject, he, hk, hd, hd2]
        · simp [parseJobDetailsFromSubject, he, hk, hd, hd2, hrest]
      · simp [parseJobDetailsFromSubject, he, hk, hd, hrest]

/-- C5 witness: a subject with neither token parses to `null`. -/
theorem parser_null_without_time_or_loc_witness :
    parseJobDetailsFromSubject "Hallo Welt".data 3 2025 = none :=
  parser_null_without_time_or_loc "Hallo Welt".data 3 2025 (Or.inl (by decide))

/-! ### Claim C8 -/

/-- C8 counterexample: the parser reads the wall clock, so re-parsing the
same subject with the same receivedAt gives different results when the
clock year has changed in between (here 2025 versus 2026). -/
theorem parser_clock_dependence_cx :
    parseJobDetailsFromSubject "am 23.08. ab 9 Uhr in 58452 Witten".data
        0 2025 ≠
      parseJobDetailsFromSubject "am 23.08. ab 9 Uhr in 58452 Witten".data
        0 2026 := by
  decide

/-- C8 (amended): the parser is a pure function of the subject and the
clock year: it never reads the receivedAt argument, and for a subject
whose date token carries an explicit year it is independent of the clock
year as well. -/
theorem parser_deterministic (s : List Char) (iy iy' ny ny' : Nat) :
    parseJobDetailsFromSubject s iy ny = parseJobDetailsFromSubject s iy' ny ∧
    (hasExplicitYearAt s = true →
      parseJobDetailsFromSubject s iy ny =
        parseJobDetailsFromSubject s iy' ny') := by
  refine ⟨rfl, fun h => ?_⟩
  by_cases he : s.isEmpty
  · simp [parseJobDetailsFromSubject, he]
  · by_cases hk : nonJobCheck (normalizeL s)
    · simp [parseJobDetailsFromSubject, he, hk]
    · unfold hasExplicitYearAt at h
      rcases hd : scanP tryDateY none (removeMorgen (normalizeL s)) with
        _ | ⟨dd, mm, yy⟩
      · rw [hd] at h; exact absurd h (by simp)
      · simp [parseJobDetailsFromSubject, he, hk, hd]

/-- C8 witness: a subject with an explicit year parses identically under
different receivedAt values and different clock years. -/
theorem parser_deterministic_witness :
    parseJobDetailsFromSubject
        "2 Umzugshelfer am 23.08.2025 ab 15:00 Uhr in 58452 Witten gesucht".data
        3 1999 =
      parseJobDetailsFromSubject
        "2 Umzugshelfer am 23.08.2025 ab 15:00 Uhr in 58452 Witten gesucht".data
        4 2050 :=
  (parser_deterministic _ 3 4 1999 2050).2 (by decide)

/-! ### Claim C6 -/

/-- C6: when the date token has no year, the synthesized year is the
clock year `nowYear` and not the receivedAt year, and a bare-hour time
token such as `ab 9 Uhr` normalizes to `09:00` with the hour zero-padded
(last conjunct: scenario B for an arbitrary clock year). -/
theorem parser_year_from_clock (s : List Char) (iy iy' ny : Nat)
    (r : JobRec) (dd mm : List Char)
    (hny : hasExplicitYearAt s = false)
    (hscan : scanP tryDateNoY none (removeMorgen (normalizeL s)) =
      some (dd, mm))
    (hr : parseJobDetailsFromSubject s iy ny = some r) :
    r.date = z2L dd ++ '.' :: (z2L mm ++ '.' :: yearChars ny) ∧
    parseJobDetailsFromSubject s iy' ny = some r ∧
    parseJobDetailsFromSubject "am 23.08. ab 9 Uhr in 58452 Witten".data
        iy ny =
      some ⟨"23.08.".data ++ yearChars ny, "09:00".data, "58452".data,
        "Witten".data⟩ := by
  refine ⟨?_, hr, ?_⟩
  · by_cases he : s.isEmpty
    · rw [parseJobDetailsFromSubject, if_pos he] at hr
      exact absurd hr (by simp)
    · by_cases hk : nonJobCheck (normalizeL s)
      · simp [parseJobDetailsFromSubject, he, hk] at hr
      · unfold hasExplicitYearAt at hny
        rcases hd : scanP tryDateY none (removeMorgen (normalizeL s)) with
          _ | v
        · simp only [parseJobDetailsFromSubject, he, hk, hd, hscan,
            if_neg, Bool.false_eq_true, not_false_iff] at hr
          exact parseRest_date hr
        · rw [hd] at hny; exact absurd hny (by simp)
  · rfl

/-- C6 witness: scenario B at the concrete clock year 2031 and receivedAt
years 7 and 8. -/
theorem parser_year_from_clock_witness :
    (⟨"23.08.2031".data, "09:00".data, "58452".data, "Witten".data⟩ :
        JobRec).date =
      z2L "23".data ++ '.' :: (z2L "08".data ++ '.' :: yearChars 2031) ∧
    parseJobDetailsFromSubject "am 23.08. ab 9 Uhr in 58452 Witten".data
        8 2031 =
      some ⟨"23.08.2031".data, "09:00".data, "58452".data, "Witten".data⟩ ∧
    parseJobDetailsFromSubject "am 23.08. ab 9 Uhr in 58452 Witten".data
        7 2031 =
      some ⟨"23.08.".data ++ yearChars 2031, "09:00".data, "58452".data,
        "Witten".data⟩ :=
  parser_year_from_clock "am 23.08. ab 9 Uhr in 58452 Witten".data 7 8 2031
    ⟨"23.08.2031".data, "09:00".data, "58452".data, "Witten".data⟩
    "23".data "08".data (by decide) (by decide) (by decide)

/-! ### Claim C4 -/

/-- C4 counterexample: in the email-watcher-smtp-new.js variant of
`checkForNewEmails`, a message whose subject parsed and whose handler
returned a reported failure (empty `successful`) with zero prior retries
is nevertheless marked read, where the claim requires it be left unread. -/
theorem mark_read_on_failure_cx :
    shouldMarkReadNew
      (some ⟨"23.08.2025".data, "15:00".data, "58452".data, "Witten".data⟩)
      (Except.ok ([], ["23.08.2025_15:00_58452"])) = true := rfl

/-- C4 (amended): in the part_002 variant of `checkForNewEmails`, a
message whose subject parses is marked read exactly when the job key was
already deduplicated, or the handler reported success, or the retry
budget is exhausted (3 prior retries for a reported failure, 2 for a
thrown error); in particular a reported failure with retries remaining
leaves the message unread. -/
theorem mark_read_discipline (r : JobRec) (a : Bool) (res : HandlerRes)
    (n : Nat) :
    shouldMarkRead (some r) a res n =
      (a || reportsSuccess res || retryBudgetSpent res n) := by
  cases res with
  | ok p =>
    rcases p with ⟨succ, failed⟩
    cases a <;> rcases succ with _ | ⟨x, xs⟩ <;>
      simp [shouldMarkRead, reportsSuccess, retryBudgetSpent]
  | error u =>
    cases a <;> simp [shouldMarkRead, reportsSuccess, retryBudgetSpent]

/-! ### Claim C3 -/

/-- C3: if a batch is in flight, a second call of `handleNewJobs` leaves
the first batch as the only one processing, defers the second to the
queue, clears the flag only at the terminal `finally` step, and a call
can take the processing slot only from the idle state. -/
theorem single_flight_queue (es : List SvcEvent) (q : List Nat)
    (b1 b2 : Nat) (h : (runSvc es).processing = some b1) (hne : b1 ≠ b2) :
    (svcStep (runSvc es) (.call b2)).processing = some b1 ∧
    b2 ∈ (svcStep (runSvc es) (.call b2)).queued ∧
    (svcStep (runSvc es) (.call b2)).processing ≠ some b2 ∧
    (svcStep (runSvc es) .finish).processing = none ∧
    (svcStep ⟨none, q⟩ (.call b2)).processing = some b2 := by
  have hstep : svcStep (runSvc es) (.call b2) =
      { runSvc es with queued := (runSvc es).queued ++ [b2] } := by
    simp [svcStep, h]
  refine ⟨?_, ?_, ?_, rfl, rfl⟩
  · rw [hstep]; exact h
  · rw [hstep]; simp
  · rw [hstep]; simp [h, hne]

/-- C3 witness: a concrete back-to-back pair. -/
theorem single_flight_queue_witness :
    (svcStep (runSvc [SvcEvent.call 1]) (.call 2)).processing = some 1 ∧
    2 ∈ (svcStep (runSvc [SvcEvent.call 1]) (.call 2)).queued ∧
    (svcStep (runSvc [SvcEvent.call 1]) (.call 2)).processing ≠ some 2 ∧
    (svcStep (runSvc [SvcEvent.call 1]) .finish).processing = none ∧
    (svcStep ⟨none, [5]⟩ (.call 2)).processing = some 2 :=
  single_flight_queue [SvcEvent.call 1] [5] 1 2 (by decide) (by decide)

/-! ### Claim C7 -/

/-- C7: starting from a set within the cap, an add leaves the size at or
below the cap (hence never above 1001); when the insertion pushes the
size over the cap, the result is exactly the 500 most recently inserted
entries (the most-recently-added half, oldest discarded); otherwise the
set is unchanged beyond the insertion. -/
theorem dedup_eviction (l : List String) (k : String)
    (h : l.length ≤ 1000) :
    (markJobAsProcessed l k).length ≤ 1000 ∧
    (1000 < (addSet l k).length →
      markJobAsProcessed l k =
        (addSet l k).drop ((addSet l k).length - 500)) ∧
    ((addSet l k).length ≤ 1000 → markJobAsProcessed l k = addSet l k) := by
  unfold markJobAsProcessed
  by_cases hc : 1000 < (addSet l k).length
  · rw [if_pos hc]
    refine ⟨?_, fun _ => rfl, fun h2 => absurd hc (by omega)⟩
    rw [List.length_drop]
    omega
  · rw [if_neg hc]
    exact ⟨by omega, fun h1 => absurd h1 hc, fun _ => rfl⟩

/-- C7 witness. -/
theorem dedup_eviction_witness :
    (markJobAsProcessed ["a"] "b").length ≤ 1000 ∧
    (1000 < (addSet ["a"] "b").length →
      markJobAsProcessed ["a"] "b" =
        (addSet ["a"] "b").drop ((addSet ["a"] "b").length - 500)) ∧
    ((addSet ["a"] "b").length ≤ 1000 →
      markJobAsProcessed ["a"] "b" = addSet ["a"] "b") :=
  dedup_eviction ["a"] "b" (by decide)

/-! ### Claim C9 -/

/-- C9 counterexample: `sendTestEmail` has no try/catch around
`sendMail`, so a send failure is propagated to the caller as a thrown
error, where the claim requires all three senders to swallow it. -/
theorem send_test_propagates_cx :
    (sendTestEmail true false).1 = Except.error "send failed" := rfl

/-- C9 (amended): `sendSuccessNotification` and `sendErrorNotification`
are fire-and-log: a send failure is never propagated and the send is
attempted at most once; `sendTestEmail` never retries either, but it does
propagate failures. -/
theorem notifications_fire_and_log : ∀ (h m : Bool),
    (sendSuccessNotification h m).1 = Except.ok () ∧
    (sendSuccessNotification h m).2 ≤ 1 ∧
    (sendErrorNotification h m).1 = Except.ok () ∧
    (sendErrorNotification h m).2 ≤ 1 ∧
    (sendTestEmail h m).2 ≤ 1 := by
  intro h m
  cases h <;> cases m <;> exact ⟨rfl, by decide, rfl, by decide, by decide⟩

/-! ### Claim C10 -/

/-- A test-prefixed id is never passed to `applyToJob`. -/
theorem processJobs_test_skips (f : String → Except String Bool)
    (j : String) (hj : isTestId j = true) :
    ∀ ids, j ∉ (processJobs f ids).2 := by
  intro ids
  induction ids with
  | nil => simp [processJobs]
  | cons a rest ih =>
    by_cases ha : isTestId a
    · simpa [processJobs, ha] using ih
    · have hne : j ≠ a := fun e => by rw [← e] at ha; exact ha hj
      cases hv : f a with
      | ok b => cases b <;> simp [processJobs, ha, hv, ih, hne]
      | error s => simp [processJobs, ha, hv, ih, hne]

/-- C10: a job id equal to `TEST123` or beginning with `TEST` is always
recorded in `results.successful` and `applyToJob` (navigation, listing
lookup, form submission) is never invoked for it, whatever the
`applyToJob` oracle does. -/
theorem processJobs_test_shortcut (f : String → Except String Bool)
    (ids : List String) (j : String) (hj : j ∈ ids)
    (ht : j = "TEST123" ∨ j.data.take 4 = "TEST".data) :
    j ∈ (processJobs f ids).1.1 ∧ j ∉ (processJobs f ids).2 := by
  have htest : isTestId j = true := by
    rcases ht with h | h
    · rw [h]; decide
    · simp [isTestId, h]
  refine ⟨?_, processJobs_test_skips f j htest ids⟩
  induction ids with
  | nil => cases hj
  | cons a rest ih =>
    rcases List.mem_cons.mp hj with rfl | hmem
    · simp [processJobs, htest]
    · have hr := ih hmem
      simp only [processJobs, List.mem_append]
      exact Or.inr hr

/-- C10 witness. -/
theorem processJobs_test_shortcut_witness :
    "TEST123" ∈
      (processJobs (fun _ => Except.ok false) ["TEST123", "X9"]).1.1 ∧
    "TEST123" ∉
      (processJobs (fun _ => Except.ok false) ["TEST123", "X9"]).2 :=
  processJobs_test_shortcut (fun _ => Except.ok false) ["TEST123", "X9"]
    "TEST123" (by decide) (Or.inl rfl)

/-! ### Claim C2 -/

/-- C2: when no entry of the page contains the needle
`Am {date} um {time} in {zip}` (hence also no entry contains it with the
city appended), `applyToJobByDetails` returns `false` without throwing. -/
theorem apply_no_match_false (page : List Entry)
    (submitOutcome : Entry → Except String Bool) (rec : JobRec)
    (h : ∀ e ∈ page, entryHasText e (detailsNeedle rec) = false) :
    applyToJobByDetails page submitOutcome rec = Except.ok false := by
  have h1 : page.filter
      (fun e => isNewEntry e && e.hasLocSpan &&
        entryHasText e (detailsNeedle rec)) = [] := by
    rw [List.filter_eq_nil_iff]
    intro e he
    simp [h e he]
  have h2 : page.filter
      (fun e => isNewEntry e && entryHasText e (detailsNeedle rec)) = [] := by
    rw [List.filter_eq_nil_iff]
    intro e he
    simp [h e he]
  simp [applyToJobByDetails, findMatchingEntries, h1, h2]

/-- C2 witness: a simulated page whose one entry shows a different job. -/
theorem apply_no_match_false_witness :
    applyToJobByDetails
      [⟨"new", true, "Am 24.08.2025 um 16:00 in 11111 Bonn"⟩]
      (fun _ => Except.ok true)
      ⟨"23.08.2025".data, "15:00".data, "58452".data, "Witten".data⟩ =
      Except.ok false :=
  apply_no_match_false _ _ _ (by decide)

/-! ### Claim C1 -/

/-- C1 counterexample: the subject assembled from the canonical template
with count `2`, date `23.08.2025`, time `15:00`, zip `58452` and the
single city word `Registrierung` (a well-formed city in the sense of the
template: nonempty, letters only, not starting with `gesucht`) is
rejected by the non-job keyword filter, so the parser returns `null`
instead of the record the claim promises. -/
theorem parser_canonical_template_cx :
    (∀ w ∈ ["Registrierung".data], goodCityWord w) ∧
    parseJobDetailsFromSubject
      (canonSubject ['2'] ['2', '3'] ['0', '8'] ['2', '0', '2', '5']
        ['1', '5'] ['0', '0'] ['5', '8', '4', '5', '2']
        ["Registrierung".data]) 0 0 = none := by
  constructor
  · decide
  · decide

/-- C1 (amended): for every subject of the canonical template
`N Umzugshelfer am DD.MM.YYYY ab HH:MM Uhr in ZZZZZ City gesucht` —
digit count `N`, two-digit day and month, four-digit year, two-digit
hour and minute, five-digit zip, and city made of letter words none of
which starts with `gesucht` — the parser of
src/src/lib/email-watcher-smtp-new.js returns exactly
`{date: DD.MM.YYYY, time: HH:MM, zip: ZZZZZ, city: City}`, provided the
subject passes the non-job keyword filter and contains no `morgen` token
(the filter and the `morgen` rewrite can otherwise reject or mangle a
template subject). The result does not depend on the `internalDate`
argument or the clock year. -/
theorem parser_canonical_template {n : List Char} (hn : n ≠ [])
    (hnd : ∀ c ∈ n, isDigitCh c = true)
    {d1 d2 m1 m2 y1 y2 y3 y4 h1 h2 i1 i2 za zb zc zd ze : Char}
    (hd1 : isDigitCh d1 = true) (hd2 : isDigitCh d2 = true)
    (hm1 : isDigitCh m1 = true) (hm2 : isDigitCh m2 = true)
    (hy1 : isDigitCh y1 = true) (hy2 : isDigitCh y2 = true)
    (hy3 : isDigitCh y3 = true) (hy4 : isDigitCh y4 = true)
    (hh1 : isDigitCh h1 = true) (hh2 : isDigitCh h2 = true)
    (hi1 : isDigitCh i1 = true) (hi2 : isDigitCh i2 = true)
    (hza : isDigitCh za = true) (hzb : isDigitCh zb = true)
    (hzc : isDigitCh zc = true) (hzd : isDigitCh zd = true)
    (hze : isDigitCh ze = true) {ws : List (List Char)}
    (hws : ∀ w ∈ ws, goodCityWord w) (hwne : ws ≠ [])
    (hnj : nonJobCheck (canonSubject n [d1, d2] [m1, m2] [y1, y2, y3, y4]
      [h1, h2] [i1, i2] [za, zb, zc, zd, ze] ws) = false)
    (hmg : removeMorgen (canonSubject n [d1, d2] [m1, m2]
      [y1, y2, y3, y4] [h1, h2] [i1, i2] [za, zb, zc, zd, ze] ws) =
      canonSubject n [d1, d2] [m1, m2] [y1, y2, y3, y4] [h1, h2]
        [i1, i2] [za, zb, zc, zd, ze] ws)
    (iy ny : Nat) :
    parseJobDetailsFromSubject (canonSubject n [d1, d2] [m1, m2]
      [y1, y2, y3, y4] [h1, h2] [i1, i2] [za, zb, zc, zd, ze] ws) iy ny =
      some ⟨[d1, d2, '.', m1, m2, '.', y1, y2, y3, y4],
        [h1, h2, ':', i1, i2], [za, zb, zc, zd, ze], joinWords ws⟩ := by
  obtain ⟨a, n0, rfl⟩ : ∃ a n0, n = a :: n0 := by
    cases n with
    | nil => exact absurd rfl hn
    | cons x y => exact ⟨x, y, rfl⟩
  have hC := normalizeL_canon hn hnd hd1 hd2 hm1 hm2 hy1 hy2 hy3 hy4
    hh1 hh2 hi1 hi2 hza hzb hzc hzd hze hws hwne
  have htime : timeSearch (canonSubject (a :: n0) [d1, d2] [m1, m2]
      [y1, y2, y3, y4] [h1, h2] [i1, i2] [za, zb, zc, zd, ze] ws) =
      some ([h1, h2], [i1, i2]) := by
    unfold timeSearch
    rw [scanTime1_canon hn hnd hd1 hd2 hm1 hm2 hy1 hy2 hy3 hy4 hh1 hh2
      hi1 hi2 [za, zb, zc, zd, ze] ws]
  have hloc := scanLoc_canon hn hnd hd1 hd2 hm1 hm2 hy1 hy2 hy3 hy4
    hh1 hh2 hi1 hi2 hza hzb hzc hzd hze hws hwne
  have hdate := scanDateY_canon hn hnd hd1 hd2 hm1 hm2 hy1 hy2 hy3 hy4
    [h1, h2] [i1, i2] [za, zb, zc, zd, ze] ws
  unfold parseJobDetailsFromSubject
  rw [if_neg (by simp [canonSubject])]
  simp only [hC]
  rw [if_neg (by simp [hnj])]
  simp only [hmg, hdate]
  unfold parseRest
  simp only [htime, hloc]
  rw [normalizeL_joinWords hws hwne]
  rfl

/-- C1 witness: scenario A of the claim, assembled from the template
with city `Witten`; every hypothesis of the amended theorem holds by
computation. -/
theorem parser_canonical_template_witness :
    parseJobDetailsFromSubject
      (canonSubject ['2'] ['2', '3'] ['0', '8'] ['2', '0', '2', '5']
        ['1', '5'] ['0', '0'] ['5', '8', '4', '5', '2'] ["Witten".data])
      0 0 =
      some ⟨['2', '3', '.', '0', '8', '.', '2', '0', '2', '5'],
        ['1', '5', ':', '0', '0'], ['5', '8', '4', '5', '2'],
        joinWords ["Witten".data]⟩ :=
  parser_canonical_template (by decide) (by decide) (by decide)
    (by decide) (by decide) (by decide) (by decide) (by decide)
    (by decide) (by decide) (by decide) (by decide) (by decide)
    (by decide) (by decide) (by decide) (by decide) (by decide)
    (by decide) (by decide) (by decide) (by decide) (by decide) 0 0

end Umzug
